import Mathlib

/-!
Shallow embedding of the revault_tx transaction engine (src/transactions.rs).

Machine integers (`u64`, `u32`, `usize`) are modelled as `Nat`; the Rust code
uses `checked_add` / `checked_mul` / `checked_sub` with `expect`, so overflow
never wraps: a would-be panic is modelled explicitly where it is reachable.
Scripts are modelled by an inductive that distinguishes exactly the script
kinds the code tests for (`is_v0_p2wsh`, `is_v0_p2wpkh`); the SHA256-based
`to_v0_p2wsh` commitment is idealized as the injective constructor `Script.wsh`
applied to the witness-script bytes.
-/

/-- Byte strings are lists of naturals. -/
abbrev Bytes := List Nat

/-- A scriptPubKey, distinguishing exactly the kinds tested by the source:
native segwit v0 script-hash (carrying the witness script it commits to,
hashing idealized as injective), native segwit v0 key-hash, and anything
else. -/
inductive Script where
  | wsh (ws : Bytes)
  | wpkh (kh : Bytes)
  | other (raw : Bytes)
deriving DecidableEq

/-- Rust `Script::is_v0_p2wsh`. -/
def Script.is_v0_p2wsh : Script → Bool
  | .wsh _ => true
  | _ => false

/-- Rust `Script::is_v0_p2wpkh`. -/
def Script.is_v0_p2wpkh : Script → Bool
  | .wpkh _ => true
  | _ => false

/-- Rust `Script::to_v0_p2wsh` on a witness script (hash idealized). -/
def to_v0_p2wsh (ws : Bytes) : Script := Script.wsh ws

/-- The sighash modes of rust-bitcoin `SigHashType`. -/
inductive SigHashType where
  | all
  | none
  | single
  | allPlusAnyoneCanPay
  | nonePlusAnyoneCanPay
  | singlePlusAnyoneCanPay
deriving DecidableEq

/-- Rust `SigHashType::as_u32`. -/
def SigHashType.as_u32 : SigHashType → Nat
  | .all => 0x01
  | .none => 0x02
  | .single => 0x03
  | .allPlusAnyoneCanPay => 0x81
  | .nonePlusAnyoneCanPay => 0x82
  | .singlePlusAnyoneCanPay => 0x83

/-- A transaction output: value in sats plus locking script. -/
structure TxOut where
  value : Nat
  script_pubkey : Script
deriving DecidableEq

/-- A skeleton transaction input: previous-output reference plus sequence. -/
structure TxIn where
  prev_txid : Nat
  prev_vout : Nat
  sequence : Nat
deriving DecidableEq

/-- The unsigned transaction skeleton. -/
structure Transaction where
  version : Int
  lock_time : Nat
  input : List TxIn
  output : List TxOut
deriving DecidableEq

/-- Per-input PSBT metadata (rust-bitcoin `psbt::Input`, the fields used by
the source). `partial_sigs` models the `BTreeMap<PublicKey, Vec<u8>>`: an
association list with unique keys whose insert overwrites in place. -/
structure PsbtIn where
  witness_utxo : Option TxOut := Option.none
  non_witness_utxo : Option Transaction := Option.none
  redeem_script : Option Bytes := Option.none
  witness_script : Option Bytes := Option.none
  sighash_type : Option SigHashType := Option.none
  partial_sigs : List (Nat × Bytes) := []
  final_script_witness : Option (List Bytes) := Option.none
deriving DecidableEq

/-- Per-output PSBT metadata (the fields used by the source). -/
structure PsbtOut where
  witness_script : Option Bytes := Option.none
  redeem_script : Option Bytes := Option.none
deriving DecidableEq

/-- A partially signed transaction: global unsigned skeleton plus per-input
and per-output metadata. -/
structure Psbt where
  unsigned_tx : Transaction
  inputs : List PsbtIn
  outputs : List PsbtOut
deriving DecidableEq

deriving instance DecidableEq for Except

/-- The value of the CPFP output in the Unvault transaction. -/
def UNVAULT_CPFP_VALUE : Nat := 30000

/-- The feerate, in sat / W, to create the unvaulting transactions with. -/
def UNVAULT_TX_FEERATE : Nat := 6

/-- The feerate, in sat / W, to create the revaulting transactions with. -/
def REVAULTING_TX_FEERATE : Nat := 22

/-- Minimum value of a stakeholder-pre-signed output. -/
def DUST_LIMIT : Nat := 200000

/-- Hard fee sanity ceiling. -/
def INSANE_FEES : Nat := 20000000

/-- Fixed transaction version. -/
def TX_VERSION : Int := 2

/-- Rust `RevaultTransaction::is_finalized`: iterates over the PSBT inputs
and returns true as soon as one carries a final script witness. -/
def is_finalized (psbt : Psbt) : Bool :=
  psbt.inputs.any (fun i => i.final_script_witness.isSome)

/-- Errors of the BIP174 Signer-role operations. -/
inductive InputSatisfactionError where
  | OutOfBounds
  | MissingWitnessScript
  | AlreadyFinalized
  | UnexpectedSighashType
deriving DecidableEq

/-- Outcome of `add_signature`: a Rust panic (a failed `expect`/`assert!`),
an `InputSatisfactionError`, or success carrying the previous raw signature
stored under the public key, if any. -/
inductive AddSigResult where
  | panicked
  | err (e : InputSatisfactionError)
  | ok (prev : Option Bytes)
deriving DecidableEq

/-- `BTreeMap::insert`: overwrites the value under the key in place if
present (returning the old value), appends otherwise. -/
def insertSig : List (Nat × Bytes) → Nat → Bytes → Option Bytes × List (Nat × Bytes)
  | [], k, v => (Option.none, [(k, v)])
  | (k', v') :: rest, k, v =>
    if k' = k then (Option.some v', (k, v) :: rest)
    else
      let r := insertSig rest k v
      (r.1, (k', v') :: r.2)

/-- The sanity conditions `add_signature` `assert!`s about the previous
txout and the scripts: with a witness script, the previous scriptPubKey is
its P2WSH commitment; without one, it is P2WPKH. -/
def addSigScriptOk (psbtin : PsbtIn) (prev_txo : TxOut) : Bool :=
  match psbtin.witness_script with
  | Option.some ws => decide (to_v0_p2wsh ws = prev_txo.script_pubkey)
  | Option.none => prev_txo.script_pubkey.is_v0_p2wpkh

/-- Rust `RevaultTransaction::add_signature` (BIP174 Signer role), returning
the outcome together with the resulting PSBT (unchanged except on success). -/
def add_signature (psbt : Psbt) (input_index : Nat) (pubkey : Nat)
    (sig_der : Bytes) (sighash_type : SigHashType) : AddSigResult × Psbt :=
  match psbt.inputs[input_index]? with
  | Option.none => (.err .OutOfBounds, psbt)
  | Option.some psbtin =>
    if psbtin.final_script_witness.isSome then (.err .AlreadyFinalized, psbt)
    else
      match psbtin.witness_utxo with
      | Option.none => (.panicked, psbt)
      | Option.some prev_txo =>
        if psbtin.non_witness_utxo.isSome then (.panicked, psbt)
        else if ¬ addSigScriptOk psbtin prev_txo then (.panicked, psbt)
        else if psbtin.redeem_script.isSome then (.panicked, psbt)
        else
          match psbtin.sighash_type with
          | Option.none => (.panicked, psbt)
          | Option.some expected =>
            if sighash_type ≠ expected then (.err .UnexpectedSighashType, psbt)
            else
              let rawsig := sig_der ++ [sighash_type.as_u32 % 256]
              let r := insertSig psbtin.partial_sigs pubkey rawsig
              (.ok r.1,
               { psbt with
                  inputs := psbt.inputs.set input_index
                    { psbtin with partial_sigs := r.2 } })

/-- The PSBT validation errors of the source (payloads kept where the claims
mention them). -/
inductive PsbtValidationError where
  | InvalidTransactionVersion (v : Int)
  | InputCountMismatch (tx_count psbt_count : Nat)
  | OutputCountMismatch (tx_count psbt_count : Nat)
  | MissingWitnessUtxo (i : PsbtIn)
  | InvalidInputField (i : PsbtIn)
  | PartiallyFinalized
  | InvalidOutputCount (n : Nat)
  | InvalidInputCount (n : Nat)
  | InvalidSighashType (i : PsbtIn)
  | InvalidInWitnessScript (i : PsbtIn)
  | MissingInWitnessScript (i : PsbtIn)
  | MissingOutWitnessScript (o : PsbtOut)
  | InvalidOutputField (o : PsbtOut)
  | InvalidOutWitnessScript (o : PsbtOut)
  | MissingRevocationInput
  | MissingFeeBumpingInput
  | InvalidPrevoutType (i : PsbtIn)
deriving DecidableEq

/-- One iteration of the input loop of `psbt_common_sanity_checks`.
The accumulator mirrors the Rust `is_final` variable: `none` means unknown,
`some true` that a previous input was final, `some false` that one was not. -/
def checkSanityInput (is_final : Option Bool) (input : PsbtIn) :
    Except PsbtValidationError (Option Bool) :=
  match input.witness_utxo with
  | Option.none => .error (.MissingWitnessUtxo input)
  | Option.some utxo =>
    if ¬ (utxo.script_pubkey.is_v0_p2wsh || utxo.script_pubkey.is_v0_p2wpkh) then
      .error (.InvalidInputField input)
    else if input.non_witness_utxo.isSome then
      .error (.InvalidInputField input)
    else if input.redeem_script.isSome then
      .error (.InvalidInputField input)
    else if input.final_script_witness.isSome then
      if is_final = Option.some false || input.witness_script.isSome then
        .error .PartiallyFinalized
      else
        .ok (Option.some true)
    else
      if is_final = Option.some true then
        .error .PartiallyFinalized
      else
        .ok (Option.some false)

/-- The input loop of `psbt_common_sanity_checks`. -/
def checkSanityInputs (is_final : Option Bool) :
    List PsbtIn → Except PsbtValidationError Unit
  | [] => .ok ()
  | input :: rest =>
    match checkSanityInput is_final input with
    | .error e => .error e
    | .ok is_final' => checkSanityInputs is_final' rest

/-- Rust `psbt_common_sanity_checks`: the structural checks shared by every
variant parser, returning the PSBT unchanged when it is accepted. -/
def psbt_common_sanity_checks (psbt : Psbt) : Except PsbtValidationError Psbt :=
  if psbt.unsigned_tx.version ≠ TX_VERSION then
    .error (.InvalidTransactionVersion psbt.unsigned_tx.version)
  else if psbt.unsigned_tx.input.length ≠ psbt.inputs.length then
    .error (.InputCountMismatch psbt.unsigned_tx.input.length psbt.inputs.length)
  else if psbt.unsigned_tx.output.length ≠ psbt.outputs.length then
    .error (.OutputCountMismatch psbt.unsigned_tx.output.length psbt.outputs.length)
  else
    match checkSanityInputs Option.none psbt.inputs with
    | .error e => .error e
    | .ok _ => .ok psbt

/-- Rust `find_revocationtx_input`: first input whose declared previous
output is native segwit v0 script-hash. -/
def find_revocationtx_input (inputs : List PsbtIn) : Option PsbtIn :=
  inputs.find? (fun i =>
    (i.witness_utxo.map (fun o => o.script_pubkey.is_v0_p2wsh)) = Option.some true)

/-- Rust `find_feebumping_input`: first input whose declared previous output
is native segwit v0 key-hash. -/
def find_feebumping_input (inputs : List PsbtIn) : Option PsbtIn :=
  inputs.find? (fun i =>
    (i.witness_utxo.map (fun o => o.script_pubkey.is_v0_p2wpkh)) = Option.some true)

/-- Rust `check_revocationtx_input`: shape of the funding input of Cancel,
Emergency and UnvaultEmergency. -/
def check_revocationtx_input (input : PsbtIn) : Except PsbtValidationError Unit :=
  if input.final_script_witness.isSome then
    .ok ()
  else if input.sighash_type ≠ Option.some SigHashType.allPlusAnyoneCanPay then
    .error (.InvalidSighashType input)
  else
    match input.witness_script with
    | Option.some ws =>
      if Option.some (to_v0_p2wsh ws) ≠ input.witness_utxo.map (fun w => w.script_pubkey) then
        .error (.InvalidInWitnessScript input)
      else
        .ok ()
    | Option.none => .error (.MissingInWitnessScript input)

/-- Rust `check_feebump_input`: shape of the optional fee-bumping input of
the revocation transactions. -/
def check_feebump_input (input : PsbtIn) : Except PsbtValidationError Unit :=
  if input.final_script_witness.isSome then
    .ok ()
  else if input.sighash_type ≠ Option.some SigHashType.all then
    .error (.InvalidSighashType input)
  else if (input.witness_utxo.map (fun u => u.script_pubkey.is_v0_p2wpkh))
      ≠ Option.some true then
    .error (.InvalidPrevoutType input)
  else if input.witness_script.isSome then
    .error (.InvalidInputField input)
  else
    .ok ()

/-- Construction errors. -/
inductive TransactionCreationError where
  | InsaneFees
  | Dust
deriving DecidableEq

/-- Modelled from the spec: the typed input-reference objects (`DepositTxIn`,
`UnvaultTxIn`, `FeeBumpTxIn` of the `txins` module, which is outside the
embedded source). Each carries the previous-output reference and sequence for
the skeleton input, the previous txout (value and locking script), the
witness script its txout kind exposes (present for the P2WSH deposit and
unvault kinds, absent for the P2WPKH fee-bump kind), and the statically known
maximum satisfaction weight of its script kind. -/
structure RevaultTxInData where
  outpoint_txid : Nat
  outpoint_vout : Nat
  sequence : Nat
  prev_txout : TxOut
  wit_script : Option Bytes
  max_sat_weight : Nat
deriving DecidableEq

/-- The skeleton input produced by `unsigned_txin()`. -/
def RevaultTxInData.unsigned_txin (i : RevaultTxInData) : TxIn :=
  { prev_txid := i.outpoint_txid, prev_vout := i.outpoint_vout,
    sequence := i.sequence }

/-- The Rust `create_tx!` macro: assembles the PSBT from the typed inputs
(each with its declared sighash type) and the typed outputs (each txout with
the witness script its kind exposes). -/
def createTx (ins : List (RevaultTxInData × SigHashType))
    (outs : List (TxOut × Option Bytes)) (lock_time : Nat) : Psbt :=
  { unsigned_tx :=
      { version := 2, lock_time := lock_time,
        input := ins.map (fun p => p.1.unsigned_txin),
        output := outs.map (fun o => o.1) },
    inputs := ins.map (fun p =>
      { witness_script := p.1.wit_script,
        sighash_type := Option.some p.2,
        witness_utxo := Option.some p.1.prev_txout }),
    outputs := outs.map (fun o => { witness_script := o.2 }) }

/-- Rust `UnvaultTransaction::new`.

Modelled from the spec: the witness-stripped weight of the skeleton is
computed by the external envelope codec (`Transaction::get_weight`), so it is
taken here as the parameter `stripped_weight`; the descriptors of the
`scripts` module are represented by the witness scripts they resolve to
(`unvault_ws`, `cpfp_ws`), a P2WSH txout built from a descriptor carrying
that witness script as both its script-hash commitment and its PSBT output
metadata. Everything else follows the source: fee = feerate 6 times
(stripped weight + deposit max satisfaction weight), `InsaneFees` above the
ceiling, `Dust` when fee + CPFP value + dust limit exceeds the deposit
value, and an unvault output worth the deposit value minus fee minus the
fixed CPFP value. -/
def UnvaultTransaction_new (deposit_input : RevaultTxInData)
    (unvault_ws cpfp_ws : Bytes) (stripped_weight : Nat) (lock_time : Nat) :
    Except TransactionCreationError Psbt :=
  let total_weight := stripped_weight + deposit_input.max_sat_weight
  let fees := UNVAULT_TX_FEERATE * total_weight
  if fees > INSANE_FEES then .error .InsaneFees
  else
    let deposit_value := deposit_input.prev_txout.value
    if fees + UNVAULT_CPFP_VALUE + DUST_LIMIT > deposit_value then .error .Dust
    else
      let unvault_value := deposit_value - fees - UNVAULT_CPFP_VALUE
      .ok (createTx [(deposit_input, SigHashType.all)]
        [(⟨unvault_value, to_v0_p2wsh unvault_ws⟩, Option.some unvault_ws),
         (⟨UNVAULT_CPFP_VALUE, to_v0_p2wsh cpfp_ws⟩, Option.some cpfp_ws)]
        lock_time)

/-- Rust `CancelTransaction::new`.

Modelled from the spec where external: `stripped_weight` is the
witness-stripped weight of the dummy skeleton, which the source computes
before ever looking at the optional fee-bump input, so it never includes it;
the deposit descriptor is represented by its witness script `deposit_ws`.
The constructor returns the transaction directly; the only failure is the
`expect` panic when the unvault value cannot pay the fee, modelled as
`Option.none`. -/
def CancelTransaction_new (unvault_input : RevaultTxInData)
    (feebump_input : Option RevaultTxInData) (deposit_ws : Bytes)
    (stripped_weight : Nat) (lock_time : Nat) : Option Psbt :=
  let total_weight := stripped_weight + unvault_input.max_sat_weight
  let fees := REVAULTING_TX_FEERATE * total_weight
  let unvault_value := unvault_input.prev_txout.value
  if unvault_value < fees then Option.none
  else
    let revault_value := unvault_value - fees
    let deposit_txo : TxOut × Option Bytes :=
      (⟨revault_value, to_v0_p2wsh deposit_ws⟩, Option.some deposit_ws)
    Option.some (match feebump_input with
      | Option.some fb =>
        createTx [(unvault_input, SigHashType.allPlusAnyoneCanPay),
                  (fb, SigHashType.all)]
          [deposit_txo] lock_time
      | Option.none =>
        createTx [(unvault_input, SigHashType.allPlusAnyoneCanPay)]
          [deposit_txo] lock_time)

/-- Rust `EmergencyTransaction::new`.

Modelled from the spec where external: `stripped_weight` as for the other
constructors (again computed from the dummy skeleton without the fee-bump
input); the Emergency address is represented by its locking script
`emer_spk`, its txout kind exposing no witness script. The only error is
`Dust`, returned when the deposit value cannot pay the fee
(`checked_sub` returning `None`). -/
def EmergencyTransaction_new (deposit_input : RevaultTxInData)
    (feebump_input : Option RevaultTxInData) (emer_spk : Script)
    (stripped_weight : Nat) (lock_time : Nat) :
    Except TransactionCreationError Psbt :=
  let total_weight := stripped_weight + deposit_input.max_sat_weight
  let fees := REVAULTING_TX_FEERATE * total_weight
  let deposit_value := deposit_input.prev_txout.value
  if deposit_value < fees then .error .Dust
  else
    let emer_value := deposit_value - fees
    let emer_txo : TxOut × Option Bytes := (⟨emer_value, emer_spk⟩, Option.none)
    .ok (match feebump_input with
      | Option.some fb =>
        createTx [(deposit_input, SigHashType.allPlusAnyoneCanPay),
                  (fb, SigHashType.all)]
          [emer_txo] lock_time
      | Option.none =>
        createTx [(deposit_input, SigHashType.allPlusAnyoneCanPay)]
          [emer_txo] lock_time)

/-- Rust `UnvaultEmergencyTransaction::new`.

Same modelling as `EmergencyTransaction_new`, except that an underflow is an
`expect` panic (`Option.none`) rather than a `Dust` error. -/
def UnvaultEmergencyTransaction_new (unvault_input : RevaultTxInData)
    (feebump_input : Option RevaultTxInData) (emer_spk : Script)
    (stripped_weight : Nat) (lock_time : Nat) : Option Psbt :=
  let total_weight := stripped_weight + unvault_input.max_sat_weight
  let fees := REVAULTING_TX_FEERATE * total_weight
  let unvault_value := unvault_input.prev_txout.value
  if unvault_value < fees then Option.none
  else
    let emer_value := unvault_value - fees
    let emer_txo : TxOut × Option Bytes := (⟨emer_value, emer_spk⟩, Option.none)
    Option.some (match feebump_input with
      | Option.some fb =>
        createTx [(unvault_input, SigHashType.allPlusAnyoneCanPay),
                  (fb, SigHashType.all)]
          [emer_txo] lock_time
      | Option.none =>
        createTx [(unvault_input, SigHashType.allPlusAnyoneCanPay)]
          [emer_txo] lock_time)

/-- Modelled from the spec: the transaction id is an opaque external hash of
the skeleton; no claim depends on its value, only on its being forwarded, so
it is represented by an uninterpreted constant function. -/
def txidModel (_tx : Transaction) : Nat := 0

/-- Rust `UnvaultTransaction::spend_unvault_txin`: locates the unvault output
by its locking script and builds the typed input referencing it, with the
timelock as sequence. `Option.none` models the `expect` panic when no output
matches.

Modelled from the spec where external: the max satisfaction weight of the
resulting unvault input is the static per-script-kind constant
`unvault_sat_weight`. -/
def spend_unvault_txin (unvault_psbt : Psbt) (unvault_ws : Bytes)
    (csv : Nat) (unvault_sat_weight : Nat) : Option RevaultTxInData :=
  let spk := to_v0_p2wsh unvault_ws
  match (unvault_psbt.unsigned_tx.output.findIdx?
      (fun txo => txo.script_pubkey = spk)) with
  | Option.none => Option.none
  | Option.some index =>
    match unvault_psbt.unsigned_tx.output.get? index with
    | Option.none => Option.none
    | Option.some txo =>
      Option.some
        { outpoint_txid := txidModel unvault_psbt.unsigned_tx,
          outpoint_vout := index,
          sequence := csv,
          prev_txout := { value := txo.value, script_pubkey := spk },
          wit_script := Option.some unvault_ws,
          max_sat_weight := unvault_sat_weight }

/-- Rust `transaction_chain_manager`: derives the Unvault and the Cancel
(without fee-bump input) from one deposit input. The outer `Option` is
`Option.none` on an `expect` panic of a constituent step; the inner `Except`
propagates the Unvault construction errors.

Modelled from the spec where external, as in the constituent constructors:
`unvault_stripped_weight` and `cancel_stripped_weight` are the
witness-stripped skeleton weights of the two transactions, and
`unvault_sat_weight` the static maximum satisfaction weight of the unvault
input script kind. -/
def transaction_chain_manager (deposit_input : RevaultTxInData)
    (deposit_ws unvault_ws cpfp_ws : Bytes)
    (unvault_stripped_weight cancel_stripped_weight unvault_sat_weight : Nat)
    (lock_time unvault_csv : Nat) :
    Option (Except TransactionCreationError (Psbt × Psbt)) :=
  match UnvaultTransaction_new deposit_input unvault_ws cpfp_ws
      unvault_stripped_weight lock_time with
  | .error e => Option.some (.error e)
  | .ok unvault_psbt =>
    match spend_unvault_txin unvault_psbt unvault_ws unvault_csv
        unvault_sat_weight with
    | Option.none => Option.none
    | Option.some unvault_txin =>
      match CancelTransaction_new unvault_txin Option.none deposit_ws
          cancel_stripped_weight lock_time with
      | Option.none => Option.none
      | Option.some cancel_psbt => Option.some (.ok (unvault_psbt, cancel_psbt))

/-- The per-output metadata loop of the Unvault and Cancel parsers: every
output must carry a witness script committing to the skeleton's locking
script, and no legacy redeem script. The list pairs each PSBT output with
the skeleton output at the same index. -/
def checkP2wshOutputs : List (PsbtOut × TxOut) → Except PsbtValidationError Unit
  | [] => .ok ()
  | (psbtout, txo) :: rest =>
    match psbtout.witness_script with
    | Option.none => .error (.MissingOutWitnessScript psbtout)
    | Option.some ws =>
      if psbtout.redeem_script.isSome then .error (.InvalidOutputField psbtout)
      else if txo.script_pubkey ≠ to_v0_p2wsh ws then
        .error (.InvalidOutWitnessScript psbtout)
      else checkP2wshOutputs rest

/-- The shared shape of the five parsers' validation: the common sanity
checks, then the variant-specific checks, accepting the PSBT unchanged. -/
def validateWith (checks : Psbt → Except PsbtValidationError Unit)
    (psbt : Psbt) : Except PsbtValidationError Psbt :=
  match psbt_common_sanity_checks psbt with
  | .error e => .error e
  | .ok psbt =>
    match checks psbt with
    | .error e => .error e
    | .ok _ => .ok psbt

/-- The variant checks of Rust `UnvaultTransaction::from_raw_psbt`: exactly
2 outputs and 1 input, a non-final input signed with ALL carrying a witness
script committing to its previous output, and P2WSH output metadata. -/
def unvaultChecks (psbt : Psbt) : Except PsbtValidationError Unit :=
  let output_count := psbt.unsigned_tx.output.length
  if output_count ≠ 2 then .error (.InvalidOutputCount output_count)
  else
    let input_count := psbt.unsigned_tx.input.length
    if input_count ≠ 1 then .error (.InvalidInputCount input_count)
    else
      match psbt.inputs[0]? with
      | Option.none => .error (.InvalidInputCount 0)
      | Option.some input =>
        let inputCheck : Except PsbtValidationError Unit :=
          if input.final_script_witness.isNone then
            if input.sighash_type ≠ Option.some SigHashType.all then
              .error (.InvalidSighashType input)
            else
              match input.witness_script with
              | Option.some ws =>
                if (input.witness_utxo.map (fun u => u.script_pubkey))
                    ≠ Option.some (to_v0_p2wsh ws) then
                  .error (.InvalidInWitnessScript input)
                else .ok ()
              | Option.none => .error (.MissingInWitnessScript input)
          else .ok ()
        match inputCheck with
        | .error e => .error e
        | .ok _ => checkP2wshOutputs (psbt.outputs.zip psbt.unsigned_tx.output)

/-- The validation of Rust `UnvaultTransaction::from_raw_psbt` on a decoded
PSBT. -/
def unvaultValidate : Psbt → Except PsbtValidationError Psbt :=
  validateWith unvaultChecks

/-- The variant checks of Rust `CancelTransaction::from_raw_psbt`: exactly
1 output with P2WSH metadata, at most 2 inputs, a well-shaped fee-bump
input when there are 2, a well-shaped revocation input, and the P2WSH
output loop. -/
def cancelChecks (psbt : Psbt) : Except PsbtValidationError Unit :=
  let output_count := psbt.unsigned_tx.output.length
  if output_count ≠ 1 then .error (.InvalidOutputCount output_count)
  else
    match psbt.outputs[0]? with
    | Option.none => .error (.InvalidOutputCount 0)
    | Option.some output =>
      if output.witness_script.isNone then
        .error (.MissingOutWitnessScript output)
      else if output.redeem_script.isSome then
        .error (.InvalidOutputField output)
      else
        let input_count := psbt.unsigned_tx.input.length
        if input_count > 2 then .error (.InvalidInputCount input_count)
        else
          let feebumpCheck : Except PsbtValidationError Unit :=
            if input_count > 1 then
              match find_feebumping_input psbt.inputs with
              | Option.none => .error .MissingFeeBumpingInput
              | Option.some input => check_feebump_input input
            else .ok ()
          match feebumpCheck with
          | .error e => .error e
          | .ok _ =>
            match find_revocationtx_input psbt.inputs with
            | Option.none => .error .MissingRevocationInput
            | Option.some input =>
              match check_revocationtx_input input with
              | .error e => .error e
              | .ok _ =>
                checkP2wshOutputs (psbt.outputs.zip psbt.unsigned_tx.output)

/-- The validation of Rust `CancelTransaction::from_raw_psbt` on a decoded
PSBT. -/
def cancelValidate : Psbt → Except PsbtValidationError Psbt :=
  validateWith cancelChecks

/-- The variant checks of Rust `EmergencyTransaction::from_raw_psbt`:
exactly 1 output, at most 2 inputs, a well-shaped fee-bump input when there
are 2, and a well-shaped revocation input. No output metadata checks. -/
def emergencyChecks (psbt : Psbt) : Except PsbtValidationError Unit :=
  let output_count := psbt.unsigned_tx.output.length
  if output_count ≠ 1 then .error (.InvalidOutputCount output_count)
  else
    let input_count := psbt.unsigned_tx.input.length
    if input_count > 2 then .error (.InvalidInputCount input_count)
    else
      let feebumpCheck : Except PsbtValidationError Unit :=
        if input_count > 1 then
          match find_feebumping_input psbt.inputs with
          | Option.none => .error .MissingFeeBumpingInput
          | Option.some input => check_feebump_input input
        else .ok ()
      match feebumpCheck with
      | .error e => .error e
      | .ok _ =>
        match find_revocationtx_input psbt.inputs with
        | Option.none => .error .MissingRevocationInput
        | Option.some input => check_revocationtx_input input

/-- The validation of Rust `EmergencyTransaction::from_raw_psbt` on a
decoded PSBT. -/
def emergencyValidate : Psbt → Except PsbtValidationError Psbt :=
  validateWith emergencyChecks

/-- The validation of Rust `UnvaultEmergencyTransaction::from_raw_psbt`,
identical to the Emergency one. -/
def unvaultEmergencyValidate : Psbt → Except PsbtValidationError Psbt :=
  validateWith emergencyChecks

/-- The per-input loop of the Spend parser: every non-final input must be
signed with ALL and carry a witness script committing to its previous
output. -/
def checkSpendInputs : List PsbtIn → Except PsbtValidationError Unit
  | [] => .ok ()
  | input :: rest =>
    if input.final_script_witness.isSome then checkSpendInputs rest
    else if input.sighash_type ≠ Option.some SigHashType.all then
      .error (.InvalidSighashType input)
    else
      match input.witness_script with
      | Option.some ws =>
        if Option.some (to_v0_p2wsh ws)
            ≠ input.witness_utxo.map (fun w => w.script_pubkey) then
          .error (.InvalidInWitnessScript input)
        else checkSpendInputs rest
      | Option.none => .error (.MissingInWitnessScript input)

/-- The variant checks of Rust `SpendTransaction::from_raw_psbt`: at least
one input and the per-input loop. The outputs are never looked at. -/
def spendChecks (psbt : Psbt) : Except PsbtValidationError Unit :=
  if psbt.inputs.length < 1 then .error (.InvalidInputCount 0)
  else checkSpendInputs psbt.inputs

/-- The validation of Rust `SpendTransaction::from_raw_psbt` on a decoded
PSBT. -/
def spendValidate : Psbt → Except PsbtValidationError Psbt :=
  validateWith spendChecks


/-!
Modelled from the spec: the BIP174 container codec. The source delegates the
byte-level encoding of the PSBT container to the external rust-bitcoin
consensus codec (out of scope per the spec, which only requires the
round-trip law); it is modelled here by a concrete executable token codec
over `List Nat` with the same shape: a total encoder and a partial decoder,
each structure field encoded in order.
-/

/-- Token encoder for a natural. -/
def encNat (n : Nat) : List Nat := [n]

/-- Token decoder for a natural. -/
def decNat : List Nat → Option (Nat × List Nat)
  | [] => Option.none
  | n :: r => Option.some (n, r)

/-- Token encoder for an integer (sign then magnitude). -/
def encInt (i : Int) : List Nat := [if i < 0 then 1 else 0, i.natAbs]

/-- Token decoder for an integer. -/
def decInt : List Nat → Option (Int × List Nat)
  | s :: m :: r =>
    if s = 1 then Option.some (-(m : Int), r) else Option.some ((m : Int), r)
  | _ => Option.none

/-- Length-prefixed list encoder body. -/
def encListAux (enc : α → List Nat) : List α → List Nat
  | [] => []
  | x :: xs => enc x ++ encListAux enc xs

/-- Length-prefixed list encoder. -/
def encList (enc : α → List Nat) (xs : List α) : List Nat :=
  xs.length :: encListAux enc xs

/-- Count-driven list decoder body. -/
def decListAux (dec : List Nat → Option (α × List Nat)) :
    Nat → List Nat → Option (List α × List Nat)
  | 0, r => Option.some ([], r)
  | n + 1, r =>
    match dec r with
    | Option.none => Option.none
    | Option.some (x, r') =>
      match decListAux dec n r' with
      | Option.none => Option.none
      | Option.some (xs, r'') => Option.some (x :: xs, r'')

/-- Length-prefixed list decoder. -/
def decList (dec : List Nat → Option (α × List Nat)) :
    List Nat → Option (List α × List Nat)
  | [] => Option.none
  | n :: r => decListAux dec n r

/-- Tagged option encoder. -/
def encOpt (enc : α → List Nat) : Option α → List Nat
  | Option.none => [0]
  | Option.some x => 1 :: enc x

/-- Tagged option decoder. -/
def decOpt (dec : List Nat → Option (α × List Nat)) :
    List Nat → Option (Option α × List Nat)
  | 0 :: r => Option.some (Option.none, r)
  | 1 :: r =>
    match dec r with
    | Option.none => Option.none
    | Option.some (x, r') => Option.some (Option.some x, r')
  | _ => Option.none

/-- Byte-string encoder. -/
def encBytes (bs : Bytes) : List Nat := encList encNat bs

/-- Byte-string decoder. -/
def decBytes : List Nat → Option (Bytes × List Nat) := decList decNat

/-- Script encoder. -/
def encScript : Script → List Nat
  | .wsh ws => 0 :: encBytes ws
  | .wpkh kh => 1 :: encBytes kh
  | .other raw => 2 :: encBytes raw

/-- Script decoder. -/
def decScript : List Nat → Option (Script × List Nat)
  | 0 :: r =>
    match decBytes r with
    | Option.none => Option.none
    | Option.some (ws, r') => Option.some (Script.wsh ws, r')
  | 1 :: r =>
    match decBytes r with
    | Option.none => Option.none
    | Option.some (kh, r') => Option.some (Script.wpkh kh, r')
  | 2 :: r =>
    match decBytes r with
    | Option.none => Option.none
    | Option.some (raw, r') => Option.some (Script.other raw, r')
  | _ => Option.none

/-- Sighash-type encoder, via its u32 representation. -/
def encSht (t : SigHashType) : List Nat := [t.as_u32]

/-- Sighash-type decoder. -/
def decSht : List Nat → Option (SigHashType × List Nat)
  | 0x01 :: r => Option.some (.all, r)
  | 0x02 :: r => Option.some (.none, r)
  | 0x03 :: r => Option.some (.single, r)
  | 0x81 :: r => Option.some (.allPlusAnyoneCanPay, r)
  | 0x82 :: r => Option.some (.nonePlusAnyoneCanPay, r)
  | 0x83 :: r => Option.some (.singlePlusAnyoneCanPay, r)
  | _ => Option.none

/-- TxOut encoder. -/
def encTxOut (o : TxOut) : List Nat := encNat o.value ++ encScript o.script_pubkey

/-- TxOut decoder. -/
def decTxOut (l : List Nat) : Option (TxOut × List Nat) :=
  match decNat l with
  | Option.none => Option.none
  | Option.some (v, r) =>
    match decScript r with
    | Option.none => Option.none
    | Option.some (s, r') => Option.some (⟨v, s⟩, r')

/-- TxIn encoder. -/
def encTxIn (i : TxIn) : List Nat := [i.prev_txid, i.prev_vout, i.sequence]

/-- TxIn decoder. -/
def decTxIn : List Nat → Option (TxIn × List Nat)
  | a :: b :: c :: r => Option.some (⟨a, b, c⟩, r)
  | _ => Option.none

/-- Transaction encoder. -/
def encTransaction (t : Transaction) : List Nat :=
  encInt t.version ++ encNat t.lock_time ++ encList encTxIn t.input
    ++ encList encTxOut t.output

/-- Transaction decoder. -/
def decTransaction (l : List Nat) : Option (Transaction × List Nat) :=
  match decInt l with
  | Option.none => Option.none
  | Option.some (v, r) =>
    match decNat r with
    | Option.none => Option.none
    | Option.some (lt, r) =>
      match decList decTxIn r with
      | Option.none => Option.none
      | Option.some (ins, r) =>
        match decList decTxOut r with
        | Option.none => Option.none
        | Option.some (outs, r) => Option.some (⟨v, lt, ins, outs⟩, r)

/-- Partial-signature entry encoder. -/
def encSigEntry (p : Nat × Bytes) : List Nat := encNat p.1 ++ encBytes p.2

/-- Partial-signature entry decoder. -/
def decSigEntry (l : List Nat) : Option ((Nat × Bytes) × List Nat) :=
  match decNat l with
  | Option.none => Option.none
  | Option.some (k, r) =>
    match decBytes r with
    | Option.none => Option.none
    | Option.some (v, r') => Option.some ((k, v), r')

/-- PSBT input encoder. -/
def encPsbtIn (i : PsbtIn) : List Nat :=
  encOpt encTxOut i.witness_utxo ++ encOpt encTransaction i.non_witness_utxo
    ++ encOpt encBytes i.redeem_script ++ encOpt encBytes i.witness_script
    ++ encOpt encSht i.sighash_type ++ encList encSigEntry i.partial_sigs
    ++ encOpt (encList encBytes) i.final_script_witness

/-- PSBT input decoder. -/
def decPsbtIn (l : List Nat) : Option (PsbtIn × List Nat) :=
  match decOpt decTxOut l with
  | Option.none => Option.none
  | Option.some (wu, r) =>
    match decOpt decTransaction r with
    | Option.none => Option.none
    | Option.some (nwu, r) =>
      match decOpt decBytes r with
      | Option.none => Option.none
      | Option.some (rs, r) =>
        match decOpt decBytes r with
        | Option.none => Option.none
        | Option.some (ws, r) =>
          match decOpt decSht r with
          | Option.none => Option.none
          | Option.some (sht, r) =>
            match decList decSigEntry r with
            | Option.none => Option.none
            | Option.some (sigs, r) =>
              match decOpt (decList decBytes) r with
              | Option.none => Option.none
              | Option.some (fsw, r) =>
                Option.some (⟨wu, nwu, rs, ws, sht, sigs, fsw⟩, r)

/-- PSBT output encoder. -/
def encPsbtOut (o : PsbtOut) : List Nat :=
  encOpt encBytes o.witness_script ++ encOpt encBytes o.redeem_script

/-- PSBT output decoder. -/
def decPsbtOut (l : List Nat) : Option (PsbtOut × List Nat) :=
  match decOpt decBytes l with
  | Option.none => Option.none
  | Option.some (ws, r) =>
    match decOpt decBytes r with
    | Option.none => Option.none
    | Option.some (rs, r') => Option.some (⟨ws, rs⟩, r')

/-- PSBT encoder. -/
def encPsbt (p : Psbt) : List Nat :=
  encTransaction p.unsigned_tx ++ encList encPsbtIn p.inputs
    ++ encList encPsbtOut p.outputs

/-- PSBT decoder. -/
def decPsbt (l : List Nat) : Option (Psbt × List Nat) :=
  match decTransaction l with
  | Option.none => Option.none
  | Option.some (tx, r) =>
    match decList decPsbtIn r with
    | Option.none => Option.none
    | Option.some (ins, r) =>
      match decList decPsbtOut r with
      | Option.none => Option.none
      | Option.some (outs, r) => Option.some (⟨tx, ins, outs⟩, r)

/-- Rust `RevaultTransaction::as_psbt_serialized` under the modelled codec. -/
def as_psbt_serialized (psbt : Psbt) : List Nat := encPsbt psbt

/-- Rust `Decodable::consensus_decode` under the modelled codec: reads one
PSBT from the front of the token stream. -/
def consensus_decode_psbt (raw : List Nat) : Option Psbt :=
  (decPsbt raw).map (fun p => p.1)

/-- Serialization-layer errors. -/
inductive TransactionSerialisationError where
  | Decoding
  | Validation (e : PsbtValidationError)
deriving DecidableEq

/-- The shared shape of every variant's `from_psbt_serialized` (the
`impl_revault_transaction!` macro dispatches to the variant's
`from_raw_psbt`): decode, then run the variant's validation. -/
def from_psbt_serialized (validate : Psbt → Except PsbtValidationError Psbt)
    (raw : List Nat) : Except TransactionSerialisationError Psbt :=
  match consensus_decode_psbt raw with
  | Option.none => .error .Decoding
  | Option.some psbt =>
    match validate psbt with
    | .error e => .error (.Validation e)
    | .ok psbt => .ok psbt

/-- Rust `UnvaultTransaction::from_raw_psbt`. -/
def unvault_from_psbt_serialized : List Nat → Except TransactionSerialisationError Psbt :=
  from_psbt_serialized unvaultValidate

/-- Rust `CancelTransaction::from_raw_psbt`. -/
def cancel_from_psbt_serialized : List Nat → Except TransactionSerialisationError Psbt :=
  from_psbt_serialized cancelValidate

/-- Rust `EmergencyTransaction::from_raw_psbt`. -/
def emergency_from_psbt_serialized : List Nat → Except TransactionSerialisationError Psbt :=
  from_psbt_serialized emergencyValidate

/-- Rust `UnvaultEmergencyTransaction::from_raw_psbt`. -/
def unvault_emergency_from_psbt_serialized : List Nat → Except TransactionSerialisationError Psbt :=
  from_psbt_serialized unvaultEmergencyValidate

/-- Rust `SpendTransaction::from_raw_psbt`. -/
def spend_from_psbt_serialized : List Nat → Except TransactionSerialisationError Psbt :=
  from_psbt_serialized spendValidate

/-- Round-trip of the natural-number codec. -/
theorem decNat_enc (n : Nat) (r : List Nat) : decNat (encNat n ++ r) = Option.some (n, r) := rfl

/-- Round-trip of the integer codec. -/
theorem decInt_enc (i : Int) (r : List Nat) : decInt (encInt i ++ r) = Option.some (i, r) := by
  by_cases h : i < 0
  · have h2 : ((i.natAbs : Int)) = -i := Int.ofNat_natAbs_of_nonpos (le_of_lt h)
    simp [encInt, decInt, h, h2]
  · have h2 : ((i.natAbs : Int)) = i := Int.natAbs_of_nonneg (not_lt.mp h)
    simp [encInt, decInt, h, h2]

/-- Round-trip of the list codec body. -/
theorem decListAux_enc {α : Type} (dec : List Nat → Option (α × List Nat))
    (enc : α → List Nat) (h : ∀ x r, dec (enc x ++ r) = Option.some (x, r)) :
    ∀ (xs : List α) (r : List Nat),
      decListAux dec xs.length (encListAux enc xs ++ r) = Option.some (xs, r) := by
  intro xs
  induction xs with
  | nil => intro r; rfl
  | cons x xs ih => intro r; simp [encListAux, decListAux, List.append_assoc, h, ih]

/-- Round-trip of the list codec. -/
theorem decList_enc {α : Type} (dec : List Nat → Option (α × List Nat))
    (enc : α → List Nat) (h : ∀ x r, dec (enc x ++ r) = Option.some (x, r))
    (xs : List α) (r : List Nat) :
    decList dec (encList enc xs ++ r) = Option.some (xs, r) := by
  simp [encList, decList, decListAux_enc dec enc h]

/-- Round-trip of the option codec. -/
theorem decOpt_enc {α : Type} (dec : List Nat → Option (α × List Nat))
    (enc : α → List Nat) (h : ∀ x r, dec (enc x ++ r) = Option.some (x, r))
    (o : Option α) (r : List Nat) :
    decOpt dec (encOpt enc o ++ r) = Option.some (o, r) := by
  cases o <;> simp [encOpt, decOpt, h]

/-- Round-trip of the byte-string codec. -/
theorem decBytes_enc (bs : Bytes) (r : List Nat) :
    decBytes (encBytes bs ++ r) = Option.some (bs, r) :=
  decList_enc decNat encNat decNat_enc bs r

/-- Round-trip of the script codec. -/
theorem decScript_enc (s : Script) (r : List Nat) :
    decScript (encScript s ++ r) = Option.some (s, r) := by
  cases s <;> simp [encScript, decScript, decBytes_enc]

/-- Round-trip of the sighash-type codec. -/
theorem decSht_enc (t : SigHashType) (r : List Nat) :
    decSht (encSht t ++ r) = Option.some (t, r) := by
  cases t <;> rfl

/-- Round-trip of the txout codec. -/
theorem decTxOut_enc (o : TxOut) (r : List Nat) :
    decTxOut (encTxOut o ++ r) = Option.some (o, r) := by
  simp [encTxOut, decTxOut, List.append_assoc, decNat_enc, decScript_enc]

/-- Round-trip of the txin codec. -/
theorem decTxIn_enc (i : TxIn) (r : List Nat) :
    decTxIn (encTxIn i ++ r) = Option.some (i, r) := rfl

/-- Round-trip of the skeleton codec. -/
theorem decTransaction_enc (t : Transaction) (r : List Nat) :
    decTransaction (encTransaction t ++ r) = Option.some (t, r) := by
  simp [encTransaction, decTransaction, List.append_assoc, decInt_enc, decNat_enc,
    decList_enc decTxIn encTxIn decTxIn_enc, decList_enc decTxOut encTxOut decTxOut_enc]

/-- Round-trip of the partial-signature entry codec. -/
theorem decSigEntry_enc (p : Nat × Bytes) (r : List Nat) :
    decSigEntry (encSigEntry p ++ r) = Option.some (p, r) := by
  simp [encSigEntry, decSigEntry, List.append_assoc, decNat_enc, decBytes_enc]

/-- Round-trip of the PSBT input codec. -/
theorem decPsbtIn_enc (i : PsbtIn) (r : List Nat) :
    decPsbtIn (encPsbtIn i ++ r) = Option.some (i, r) := by
  simp [encPsbtIn, decPsbtIn, List.append_assoc,
    decOpt_enc decTxOut encTxOut decTxOut_enc,
    decOpt_enc decTransaction encTransaction decTransaction_enc,
    decOpt_enc decBytes encBytes decBytes_enc,
    decOpt_enc decSht encSht decSht_enc,
    decList_enc decSigEntry encSigEntry decSigEntry_enc,
    decOpt_enc (decList decNat) (encList encNat) decBytes_enc,
    decOpt_enc (decList decBytes) (encList encBytes)
      (decList_enc decBytes encBytes decBytes_enc)]

/-- Round-trip of the PSBT output codec. -/
theorem decPsbtOut_enc (o : PsbtOut) (r : List Nat) :
    decPsbtOut (encPsbtOut o ++ r) = Option.some (o, r) := by
  simp [encPsbtOut, decPsbtOut, List.append_assoc,
    decOpt_enc decBytes encBytes decBytes_enc]

/-- Round-trip of the PSBT codec. -/
theorem decPsbt_enc (p : Psbt) (r : List Nat) :
    decPsbt (encPsbt p ++ r) = Option.some (p, r) := by
  simp [encPsbt, decPsbt, List.append_assoc, decTransaction_enc,
    decList_enc decPsbtIn encPsbtIn decPsbtIn_enc,
    decList_enc decPsbtOut encPsbtOut decPsbtOut_enc]

/-- Decoding inverts the serializer. -/
theorem consensus_decode_psbt_enc (p : Psbt) :
    consensus_decode_psbt (as_psbt_serialized p) = Option.some p := by
  have h := decPsbt_enc p []
  simp only [List.append_nil] at h
  simp [consensus_decode_psbt, as_psbt_serialized, h]


/-- Lookup in the partial-signature map, mirroring `insertSig`'s key test. -/
def lookupSig : List (Nat × Bytes) → Nat → Option Bytes
  | [], _ => Option.none
  | (k', v') :: rest, k => if k' = k then Option.some v' else lookupSig rest k

/-- `insertSig` returns the previously stored value. -/
theorem insertSig_fst (l : List (Nat × Bytes)) (k : Nat) (v : Bytes) :
    (insertSig l k v).1 = lookupSig l k := by
  induction l with
  | nil => rfl
  | cons p rest ih =>
    obtain ⟨k', v'⟩ := p
    by_cases h : k' = k <;> simp [insertSig, lookupSig, h, ih]

/-- Content of the map after `insertSig`: the entry for the key is
overwritten or added, every other entry is untouched. -/
theorem lookupSig_insertSig (l : List (Nat × Bytes)) (k : Nat) (v : Bytes) (q : Nat) :
    lookupSig (insertSig l k v).2 q =
      if k = q then Option.some v else lookupSig l q := by
  induction l with
  | nil => simp [insertSig, lookupSig]
  | cons p rest ih =>
    obtain ⟨k', v'⟩ := p
    by_cases h : k' = k
    · subst h
      by_cases hq : k' = q <;> simp [insertSig, lookupSig, hq]
    · by_cases hq : k' = q
      · subst hq
        have hne : ¬ k = k' := fun hk => h hk.symm
        simp [insertSig, lookupSig, h, hne]
      · simp [insertSig, lookupSig, h, hq, ih]

/-- Re-inserting the same value under the same key returns it and leaves the
map unchanged. -/
theorem insertSig_idem (l : List (Nat × Bytes)) (k : Nat) (v : Bytes) :
    insertSig (insertSig l k v).2 k v = (Option.some v, (insertSig l k v).2) := by
  induction l with
  | nil => simp [insertSig]
  | cons p rest ih =>
    obtain ⟨k', v'⟩ := p
    by_cases h : k' = k
    · simp [insertSig, h]
    · simp [insertSig, h, ih]

/-- The success path of `add_signature`, in full: the sighash byte is
appended to the DER signature, the map entry is inserted, the previous
value is returned. -/
theorem add_signature_success (psbt : Psbt) (idx pk : Nat) (sig : Bytes)
    (sht : SigHashType) (pin : PsbtIn) (prev_txo : TxOut)
    (h1 : psbt.inputs[idx]? = Option.some pin)
    (h2 : pin.final_script_witness = Option.none)
    (h3 : pin.witness_utxo = Option.some prev_txo)
    (h4 : pin.non_witness_utxo = Option.none)
    (h5 : addSigScriptOk pin prev_txo = true)
    (h6 : pin.redeem_script = Option.none)
    (h7 : pin.sighash_type = Option.some sht) :
    add_signature psbt idx pk sig sht =
      (.ok (insertSig pin.partial_sigs pk (sig ++ [sht.as_u32 % 256])).1,
       ({ psbt with
          inputs := psbt.inputs.set idx
            ({ pin with partial_sigs :=
                (insertSig pin.partial_sigs pk (sig ++ [sht.as_u32 % 256])).2 }) })) := by
  simp [add_signature, h1, h2, h3, h4, h5, h6, h7]

/-- Setting a list index to the value it already holds is the identity. -/
theorem list_set_self {α : Type} :
    ∀ (l : List α) (i : Nat) (a : α), l[i]? = Option.some a → l.set i a = l
  | [], i, _, h => by cases i <;> simp at h
  | x :: xs, 0, a, h => by
    simp at h
    simp [h]
  | x :: xs, n + 1, a, h => by
    have hx : xs[n]? = Option.some a := by simpa using h
    simp [List.set, list_set_self xs n a hx]

/-- A PSBT input carrying a final script witness (its signing metadata
wiped, as after finalization). -/
def finalIn : PsbtIn :=
  { witness_utxo := Option.some ⟨1000, Script.wsh [1]⟩,
    final_script_witness := Option.some [[2]] }

/-- A PSBT input still awaiting signatures. -/
def nonFinalIn : PsbtIn :=
  { witness_utxo := Option.some ⟨1000, Script.wsh [1]⟩,
    witness_script := Option.some [1],
    sighash_type := Option.some SigHashType.all }

/-- A PSBT in which exactly one of the two inputs is finalized. -/
def psbtMixed : Psbt :=
  { unsigned_tx := ⟨2, 0, [⟨0, 0, 0⟩, ⟨0, 1, 0⟩], []⟩,
    inputs := [finalIn, nonFinalIn],
    outputs := [] }

/-- C1, counterexample: `is_finalized` already returns true on a PSBT in
which one input carries a final script witness while the other does not, so
it is not equivalent to "every input carries a final witness". -/
theorem C1_counterexample :
    is_finalized psbtMixed = true ∧
    ¬ (∀ i ∈ psbtMixed.inputs, i.final_script_witness.isSome = true) := by
  constructor
  · decide
  · intro h
    have hm : nonFinalIn ∈ psbtMixed.inputs := by decide
    have := h nonFinalIn hm
    simp [nonFinalIn] at this

/-- C1, amended: `is_finalized` returns true if and only if at least one
input of the transaction carries a final script witness. -/
theorem C1_is_finalized_iff_some_final (psbt : Psbt) :
    is_finalized psbt = true ↔
      ∃ i ∈ psbt.inputs, i.final_script_witness.isSome = true := by
  simp [is_finalized, List.any_eq_true]

/-- C6: `add_signature` fails with `OutOfBounds` on an invalid input index,
with `AlreadyFinalized` when the input carries a final script witness, and
with `UnexpectedSighashType` when the supplied mode differs from the one
recorded at construction, in each case leaving the PSBT unchanged; on
success it stores, under the public key, the DER signature with the
sighash-type byte appended — overwriting any previous entry and leaving all
other entries untouched — and returns the previously stored value. -/
theorem C6_add_signature_spec (psbt : Psbt) (idx pk : Nat) (sig : Bytes)
    (sht : SigHashType) :
    (psbt.inputs[idx]? = Option.none →
      add_signature psbt idx pk sig sht = (.err .OutOfBounds, psbt)) ∧
    (∀ pin, psbt.inputs[idx]? = Option.some pin →
      pin.final_script_witness.isSome = true →
      add_signature psbt idx pk sig sht = (.err .AlreadyFinalized, psbt)) ∧
    (∀ pin prev_txo expected, psbt.inputs[idx]? = Option.some pin →
      pin.final_script_witness = Option.none →
      pin.witness_utxo = Option.some prev_txo →
      pin.non_witness_utxo = Option.none →
      addSigScriptOk pin prev_txo = true →
      pin.redeem_script = Option.none →
      pin.sighash_type = Option.some expected →
      sht ≠ expected →
      add_signature psbt idx pk sig sht = (.err .UnexpectedSighashType, psbt)) ∧
    (∀ pin prev_txo, psbt.inputs[idx]? = Option.some pin →
      pin.final_script_witness = Option.none →
      pin.witness_utxo = Option.some prev_txo →
      pin.non_witness_utxo = Option.none →
      addSigScriptOk pin prev_txo = true →
      pin.redeem_script = Option.none →
      pin.sighash_type = Option.some sht →
      add_signature psbt idx pk sig sht =
        (.ok (lookupSig pin.partial_sigs pk),
         ({ psbt with
            inputs := psbt.inputs.set idx
              ({ pin with partial_sigs :=
                  (insertSig pin.partial_sigs pk (sig ++ [sht.as_u32 % 256])).2 }) })) ∧
      (∀ q, lookupSig (insertSig pin.partial_sigs pk (sig ++ [sht.as_u32 % 256])).2 q =
        if pk = q then Option.some (sig ++ [sht.as_u32 % 256])
        else lookupSig pin.partial_sigs q)) := by
  refine ⟨?_, ?_, ?_, ?_⟩
  · intro h
    simp [add_signature, h]
  · intro pin h hfin
    simp [add_signature, h, hfin]
  · intro pin prev_txo expected h hfin hwu hnwu hok hrs hsht hne
    simp [add_signature, h, hfin, hwu, hnwu, hok, hrs, hsht, hne]
  · intro pin prev_txo h hfin hwu hnwu hok hrs hsht
    constructor
    · rw [add_signature_success psbt idx pk sig sht pin prev_txo h hfin hwu hnwu hok hrs hsht]
      rw [insertSig_fst]
    · intro q
      exact lookupSig_insertSig pin.partial_sigs pk (sig ++ [sht.as_u32 % 256]) q

/-- The single input of `psbtOneIn`. -/
def psbtOneInInput : PsbtIn :=
  { witness_utxo := Option.some ⟨1000, Script.wsh [5]⟩,
    witness_script := Option.some [5],
    sighash_type := Option.some SigHashType.all }

/-- A well-formed single-input PSBT awaiting its first signature. -/
def psbtOneIn : Psbt :=
  { unsigned_tx := ⟨2, 0, [⟨0, 0, 0⟩], [⟨900, Script.wsh [7]⟩]⟩,
    inputs := [psbtOneInInput],
    outputs := [{ witness_script := Option.some [7] }] }

/-- C6, witness: the four branches of the specification at concrete inputs. -/
theorem C6_add_signature_spec_witness :
    add_signature psbtOneIn 5 7 [48, 9] SigHashType.all = (.err .OutOfBounds, psbtOneIn) ∧
    add_signature psbtMixed 0 7 [48, 9] SigHashType.all = (.err .AlreadyFinalized, psbtMixed) ∧
    add_signature psbtOneIn 0 7 [48, 9] SigHashType.single =
      (.err .UnexpectedSighashType, psbtOneIn) ∧
    add_signature psbtOneIn 0 7 [48, 9] SigHashType.all =
      (.ok Option.none,
       ({ psbtOneIn with
          inputs := psbtOneIn.inputs.set 0
            ({ psbtOneInInput with partial_sigs := [(7, [48, 9, 1])] }) })) := by
  refine ⟨?_, ?_, ?_, ?_⟩
  · exact (C6_add_signature_spec psbtOneIn 5 7 [48, 9] SigHashType.all).1 (by decide)
  · exact (C6_add_signature_spec psbtMixed 0 7 [48, 9] SigHashType.all).2.1
      finalIn (by decide) (by decide)
  · exact (C6_add_signature_spec psbtOneIn 0 7 [48, 9] SigHashType.single).2.2.1
      psbtOneInInput ⟨1000, Script.wsh [5]⟩ SigHashType.all
      (by decide) (by decide) (by decide) (by decide) (by decide) (by decide)
      (by decide) (by decide)
  · have h := ((C6_add_signature_spec psbtOneIn 0 7 [48, 9] SigHashType.all).2.2.2
      psbtOneInInput ⟨1000, Script.wsh [5]⟩
      (by decide) (by decide) (by decide) (by decide) (by decide) (by decide)
      (by decide)).1
    simpa [psbtOneInInput, insertSig, lookupSig] using h

/-- C7: calling `add_signature` twice with the same input index, public key,
signature and sighash mode leaves the PSBT (in particular the
partial-signature map) exactly as after the first call, and the second call
returns the raw signature stored by the first. -/
theorem C7_add_signature_idempotent (psbt : Psbt) (idx pk : Nat) (sig : Bytes)
    (sht : SigHashType) (pin : PsbtIn) (prev_txo : TxOut)
    (h1 : psbt.inputs[idx]? = Option.some pin)
    (h2 : pin.final_script_witness = Option.none)
    (h3 : pin.witness_utxo = Option.some prev_txo)
    (h4 : pin.non_witness_utxo = Option.none)
    (h5 : addSigScriptOk pin prev_txo = true)
    (h6 : pin.redeem_script = Option.none)
    (h7 : pin.sighash_type = Option.some sht) :
    add_signature (add_signature psbt idx pk sig sht).2 idx pk sig sht =
      (.ok (Option.some (sig ++ [sht.as_u32 % 256])),
       (add_signature psbt idx pk sig sht).2) := by
  have hstep := add_signature_success psbt idx pk sig sht pin prev_txo
    h1 h2 h3 h4 h5 h6 h7
  have hlt : idx < psbt.inputs.length := (List.getElem?_eq_some.mp h1).1
  rw [hstep]
  have hget : (psbt.inputs.set idx
      ({ pin with partial_sigs :=
          (insertSig pin.partial_sigs pk (sig ++ [sht.as_u32 % 256])).2 }))[idx]?
      = Option.some ({ pin with partial_sigs :=
          (insertSig pin.partial_sigs pk (sig ++ [sht.as_u32 % 256])).2 }) :=
    List.getElem?_set_eq_of_lt _ (by simpa using hlt)
  have hstep2 := add_signature_success
    ({ psbt with
        inputs := psbt.inputs.set idx
          ({ pin with partial_sigs :=
              (insertSig pin.partial_sigs pk (sig ++ [sht.as_u32 % 256])).2 }) })
    idx pk sig sht
    ({ pin with partial_sigs :=
        (insertSig pin.partial_sigs pk (sig ++ [sht.as_u32 % 256])).2 })
    prev_txo hget h2 h3 h4 (by simpa [addSigScriptOk] using h5) h6 h7
  rw [hstep2]
  have hidem := insertSig_idem pin.partial_sigs pk (sig ++ [sht.as_u32 % 256])
  simp [hidem, List.set_set]

/-- C7, witness: the idempotence property at a concrete single-input PSBT. -/
theorem C7_add_signature_idempotent_witness :
    add_signature (add_signature psbtOneIn 0 7 [48, 9] SigHashType.all).2
        0 7 [48, 9] SigHashType.all =
      (.ok (Option.some [48, 9, 1]),
       (add_signature psbtOneIn 0 7 [48, 9] SigHashType.all).2) := by
  have h := C7_add_signature_idempotent psbtOneIn 0 7 [48, 9] SigHashType.all
    psbtOneInInput ⟨1000, Script.wsh [5]⟩
    (by decide) (by decide) (by decide) (by decide) (by decide) (by decide) (by decide)
  simpa using h

/-- The values of the skeleton outputs of a PSBT, in order. -/
def outputValues (p : Psbt) : List Nat := p.unsigned_tx.output.map TxOut.value

/-- Whether a chain construction returned successfully (no panic, no error). -/
def isOkChain : Option (Except TransactionCreationError (Psbt × Psbt)) → Bool
  | Option.some (.ok _) => true
  | _ => false

/-- The success case of `UnvaultTransaction_new`, explicitly. -/
theorem UnvaultTransaction_new_ok (dep : RevaultTxInData) (uws cws : Bytes)
    (uw lt : Nat)
    (hf : ¬ UNVAULT_TX_FEERATE * (uw + dep.max_sat_weight) > INSANE_FEES)
    (hd : ¬ UNVAULT_TX_FEERATE * (uw + dep.max_sat_weight) + UNVAULT_CPFP_VALUE + DUST_LIMIT
        > dep.prev_txout.value) :
    UnvaultTransaction_new dep uws cws uw lt = Except.ok (createTx
      [(dep, SigHashType.all)]
      [(⟨dep.prev_txout.value - UNVAULT_TX_FEERATE * (uw + dep.max_sat_weight)
          - UNVAULT_CPFP_VALUE, to_v0_p2wsh uws⟩, Option.some uws),
       (⟨UNVAULT_CPFP_VALUE, to_v0_p2wsh cws⟩, Option.some cws)] lt) := by
  simp [UnvaultTransaction_new, hf, hd]

/-- `spend_unvault_txin` on a freshly constructed Unvault PSBT locates the
unvault output at index 0. -/
theorem spend_unvault_txin_createTx (dep : RevaultTxInData) (uws cws : Bytes)
    (uv cv lt csv usw : Nat) :
    spend_unvault_txin
      (createTx [(dep, SigHashType.all)]
        [(⟨uv, to_v0_p2wsh uws⟩, Option.some uws),
         (⟨cv, to_v0_p2wsh cws⟩, Option.some cws)] lt)
      uws csv usw
    = Option.some ⟨0, 0, csv, ⟨uv, to_v0_p2wsh uws⟩, Option.some uws, usw⟩ := by
  simp [spend_unvault_txin, createTx, txidModel, List.findIdx?_cons]

/-- The success case of `CancelTransaction_new` without fee-bump input,
explicitly. -/
theorem CancelTransaction_new_some (txin : RevaultTxInData) (dws : Bytes)
    (cw lt : Nat)
    (h : ¬ txin.prev_txout.value < REVAULTING_TX_FEERATE * (cw + txin.max_sat_weight)) :
    CancelTransaction_new txin Option.none dws cw lt
    = Option.some (createTx [(txin, SigHashType.allPlusAnyoneCanPay)]
        [(⟨txin.prev_txout.value - REVAULTING_TX_FEERATE * (cw + txin.max_sat_weight),
           to_v0_p2wsh dws⟩, Option.some dws)] lt) := by
  simp [CancelTransaction_new, h]

/-- C2, amended: under the implicit sanity bounds (the unvault fee within
the insane-fee ceiling, the fixed cancel fee at most the dust limit), the
manager chain construction succeeds if and only if the deposit value is AT
LEAST fee(unvault) + 30000 + 200000 — the boundary case succeeds, against
the claim's strict inequality — and below that threshold it fails with the
`Dust` error; fee(unvault) is the feerate 6 times (witness-stripped weight
+ deposit max satisfaction weight). On success the Unvault transaction has
exactly the unvault and CPFP outputs, and
unvaultOutputValue + fee(unvault) + 30000 = depositValue exactly. -/
theorem C2_manager_chain (dep : RevaultTxInData) (dws uws cws : Bytes)
    (uw cw usw lt csv : Nat)
    (hfee : UNVAULT_TX_FEERATE * (uw + dep.max_sat_weight) ≤ INSANE_FEES)
    (hcw : REVAULTING_TX_FEERATE * (cw + usw) ≤ DUST_LIMIT) :
    (isOkChain (transaction_chain_manager dep dws uws cws uw cw usw lt csv) = true ↔
      UNVAULT_TX_FEERATE * (uw + dep.max_sat_weight) + UNVAULT_CPFP_VALUE + DUST_LIMIT
        ≤ dep.prev_txout.value) ∧
    (dep.prev_txout.value < UNVAULT_TX_FEERATE * (uw + dep.max_sat_weight)
        + UNVAULT_CPFP_VALUE + DUST_LIMIT →
      transaction_chain_manager dep dws uws cws uw cw usw lt csv
        = Option.some (Except.error TransactionCreationError.Dust)) ∧
    (∀ up cp, transaction_chain_manager dep dws uws cws uw cw usw lt csv
        = Option.some (Except.ok (up, cp)) →
      ∃ uv, outputValues up = [uv, UNVAULT_CPFP_VALUE] ∧
        uv + UNVAULT_TX_FEERATE * (uw + dep.max_sat_weight) + UNVAULT_CPFP_VALUE
          = dep.prev_txout.value) := by
  have hnf : ¬ UNVAULT_TX_FEERATE * (uw + dep.max_sat_weight) > INSANE_FEES :=
    not_lt.mpr hfee
  by_cases hv : UNVAULT_TX_FEERATE * (uw + dep.max_sat_weight) + UNVAULT_CPFP_VALUE
      + DUST_LIMIT > dep.prev_txout.value
  · have hU : UnvaultTransaction_new dep uws cws uw lt
        = Except.error TransactionCreationError.Dust := by
      simp [UnvaultTransaction_new, hnf, hv]
    refine ⟨?_, ?_, ?_⟩
    · simp only [transaction_chain_manager, hU, isOkChain]
      constructor
      · intro hfalse
        exact absurd hfalse (by simp)
      · intro hge
        omega
    · intro _
      simp [transaction_chain_manager, hU]
    · intro up cp hc
      simp [transaction_chain_manager, hU] at hc
  · have hU := UnvaultTransaction_new_ok dep uws cws uw lt hnf hv
    have hS := spend_unvault_txin_createTx dep uws cws
      (dep.prev_txout.value - UNVAULT_TX_FEERATE * (uw + dep.max_sat_weight)
        - UNVAULT_CPFP_VALUE) UNVAULT_CPFP_VALUE lt csv usw
    have hC := CancelTransaction_new_some
      ⟨0, 0, csv,
       ⟨dep.prev_txout.value - UNVAULT_TX_FEERATE * (uw + dep.max_sat_weight)
          - UNVAULT_CPFP_VALUE, to_v0_p2wsh uws⟩, Option.some uws, usw⟩
      dws cw lt
      (by
        show ¬ (dep.prev_txout.value - UNVAULT_TX_FEERATE * (uw + dep.max_sat_weight)
          - UNVAULT_CPFP_VALUE) < REVAULTING_TX_FEERATE * (cw + usw)
        omega)
    refine ⟨?_, ?_, ?_⟩
    · simp only [transaction_chain_manager, hU, hS, hC, isOkChain]
      constructor
      · intro _
        omega
      · intro _
        trivial
    · intro hlt
      exact absurd hlt (by omega)
    · intro up cp hc
      simp only [transaction_chain_manager, hU, hS, hC, Option.some.injEq,
        Except.ok.injEq, Prod.mk.injEq] at hc
      refine ⟨dep.prev_txout.value - UNVAULT_TX_FEERATE * (uw + dep.max_sat_weight)
        - UNVAULT_CPFP_VALUE, ?_, ?_⟩
      · rw [← hc.1]
        simp [createTx, outputValues]
      · omega

/-- A deposit input sitting exactly at the success boundary of the manager
chain: value = fee(unvault) + 30000 + 200000 for the weights used below. -/
def depC2 : RevaultTxInData :=
  ⟨3, 0, 0, ⟨234200, Script.wsh [20]⟩, Option.some [20], 200⟩

/-- C2, counterexample: with stripped weight 500 and deposit satisfaction
weight 200, fee(unvault) = 6 * 700 = 4200, and a deposit of exactly
4200 + 30000 + 200000 = 234200 constructs the manager chain successfully,
although the claim's strict inequality `v > fee + 30000 + 200000` fails. -/
theorem C2_counterexample :
    isOkChain (transaction_chain_manager depC2 [20] [11] [12] 500 300 400 0 42) = true ∧
    ¬ (234200 > 6 * (500 + 200) + 30000 + 200000) := by
  constructor
  · decide
  · omega

/-- A deposit input one sat below the success boundary of the manager
chain for the same weights. -/
def depC2dust : RevaultTxInData :=
  ⟨3, 0, 0, ⟨234199, Script.wsh [20]⟩, Option.some [20], 200⟩

/-- C2, witness: the amended characterization applied at the boundary
deposit (success) and one sat below it (the `Dust` error). -/
theorem C2_manager_chain_witness :
    isOkChain (transaction_chain_manager depC2 [20] [11] [12] 500 300 400 0 42) = true ∧
    transaction_chain_manager depC2dust [20] [11] [12] 500 300 400 0 42
      = Option.some (Except.error TransactionCreationError.Dust) := by
  constructor
  · exact ((C2_manager_chain depC2 [20] [11] [12] 500 300 400 0 42
      (by decide) (by decide)).1).mpr (by decide)
  · exact (C2_manager_chain depC2dust [20] [11] [12] 500 300 400 0 42
      (by decide) (by decide)).2.1 (by decide)

/-- C3: for each revocation transaction (Cancel, Emergency,
UnvaultEmergency) constructed from a funding input able to pay the fee, the
single output's value plus 22 * (witness-stripped weight without fee-bump
input + max satisfaction weight of the funding input) equals the funding
value exactly, and the output value is the same whether or not a fee-bump
input is supplied. -/
theorem C3_revocation_output_value (txin fb : RevaultTxInData)
    (dws : Bytes) (emer_spk : Script) (sw lt : Nat)
    (h : REVAULTING_TX_FEERATE * (sw + txin.max_sat_weight) ≤ txin.prev_txout.value) :
    ((CancelTransaction_new txin (Option.some fb) dws sw lt).map outputValues
      = Option.some [txin.prev_txout.value
          - REVAULTING_TX_FEERATE * (sw + txin.max_sat_weight)]) ∧
    ((CancelTransaction_new txin (Option.some fb) dws sw lt).map outputValues
      = (CancelTransaction_new txin Option.none dws sw lt).map outputValues) ∧
    ((EmergencyTransaction_new txin (Option.some fb) emer_spk sw lt).toOption.map outputValues
      = Option.some [txin.prev_txout.value
          - REVAULTING_TX_FEERATE * (sw + txin.max_sat_weight)]) ∧
    ((EmergencyTransaction_new txin (Option.some fb) emer_spk sw lt).toOption.map outputValues
      = (EmergencyTransaction_new txin Option.none emer_spk sw lt).toOption.map outputValues) ∧
    ((UnvaultEmergencyTransaction_new txin (Option.some fb) emer_spk sw lt).map outputValues
      = Option.some [txin.prev_txout.value
          - REVAULTING_TX_FEERATE * (sw + txin.max_sat_weight)]) ∧
    ((UnvaultEmergencyTransaction_new txin (Option.some fb) emer_spk sw lt).map outputValues
      = (UnvaultEmergencyTransaction_new txin Option.none emer_spk sw lt).map outputValues) ∧
    (txin.prev_txout.value - REVAULTING_TX_FEERATE * (sw + txin.max_sat_weight))
      + REVAULTING_TX_FEERATE * (sw + txin.max_sat_weight) = txin.prev_txout.value := by
  have hn : ¬ txin.prev_txout.value < REVAULTING_TX_FEERATE * (sw + txin.max_sat_weight) :=
    not_lt.mpr h
  refine ⟨?_, ?_, ?_, ?_, ?_, ?_, ?_⟩
  · simp [CancelTransaction_new, hn, createTx, outputValues]
  · simp [CancelTransaction_new, hn, createTx, outputValues]
  · simp [EmergencyTransaction_new, hn, createTx, outputValues, Except.toOption]
  · simp [EmergencyTransaction_new, hn, createTx, outputValues, Except.toOption]
  · simp [UnvaultEmergencyTransaction_new, hn, createTx, outputValues]
  · simp [UnvaultEmergencyTransaction_new, hn, createTx, outputValues]
  · omega

/-- A funding input comfortably above the revocation fee for the weights
used in the witnesses. -/
def txinC3 : RevaultTxInData :=
  ⟨5, 0, 0, ⟨300000, Script.wsh [30]⟩, Option.some [30], 100⟩

/-- A P2WPKH fee-bumping input. -/
def fbIn : RevaultTxInData :=
  ⟨6, 1, 0, ⟨50000, Script.wpkh [40]⟩, Option.none, 90⟩

/-- C3, witness: the revocation fee arithmetic at a concrete unvault/deposit
input of value 300000, stripped weight 200, satisfaction weight 100:
output value 300000 - 22 * 300 = 293400, with and without fee-bump input. -/
theorem C3_revocation_output_value_witness :
    (CancelTransaction_new txinC3 (Option.some fbIn) [31] 200 0).map outputValues
      = Option.some [293400] ∧
    293400 + 22 * (200 + 100) = 300000 := by
  have h := C3_revocation_output_value txinC3 fbIn [31] (Script.other [9]) 200 0
    (by decide)
  refine ⟨?_, by omega⟩
  have h1 := h.1
  simpa using h1

/-- C4, counterexample: an Emergency transaction whose deposit value (4401)
cannot cover the computed fee (4400) plus the 200000 dust floor is still
constructed successfully — the `Dust` error is only returned when the value
cannot cover the fee alone. -/
theorem C4_counterexample :
    (EmergencyTransaction_new ⟨7, 0, 0, ⟨4401, Script.wsh [33]⟩, Option.some [33], 100⟩
        Option.none (Script.other [9]) 100 0).isOk = true ∧
    4401 < 22 * (100 + 100) + 200000 := by
  constructor
  · decide
  · omega

/-- C4, amended: the insufficient-funding policies actually implemented:
`UnvaultTransaction::new` fails with `Dust` exactly when the deposit value
is below fee + 30000 + 200000 (and the fee is within the insane-fee
ceiling); `EmergencyTransaction::new` fails with `Dust` exactly when the
deposit value is below the fee alone (the dust floor is not enforced); and
`CancelTransaction::new` / `UnvaultEmergencyTransaction::new` have no
`Dust` error at all — they construct whenever the funding covers the fee
(and panic otherwise). -/
theorem C4_dust_policy (dep txin : RevaultTxInData) (fb : Option RevaultTxInData)
    (uws cws dws : Bytes) (emer_spk : Script) (sw lt : Nat) :
    (UnvaultTransaction_new dep uws cws sw lt = Except.error TransactionCreationError.Dust ↔
      UNVAULT_TX_FEERATE * (sw + dep.max_sat_weight) ≤ INSANE_FEES ∧
      dep.prev_txout.value < UNVAULT_TX_FEERATE * (sw + dep.max_sat_weight)
        + UNVAULT_CPFP_VALUE + DUST_LIMIT) ∧
    (EmergencyTransaction_new dep fb emer_spk sw lt = Except.error TransactionCreationError.Dust ↔
      dep.prev_txout.value < REVAULTING_TX_FEERATE * (sw + dep.max_sat_weight)) ∧
    ((CancelTransaction_new txin fb dws sw lt).isSome = true ↔
      REVAULTING_TX_FEERATE * (sw + txin.max_sat_weight) ≤ txin.prev_txout.value) ∧
    ((UnvaultEmergencyTransaction_new txin fb emer_spk sw lt).isSome = true ↔
      REVAULTING_TX_FEERATE * (sw + txin.max_sat_weight) ≤ txin.prev_txout.value) := by
  refine ⟨?_, ?_, ?_, ?_⟩
  · by_cases h1 : UNVAULT_TX_FEERATE * (sw + dep.max_sat_weight) > INSANE_FEES
    · simp [UnvaultTransaction_new, h1] <;> omega
    · by_cases h2 : UNVAULT_TX_FEERATE * (sw + dep.max_sat_weight) + UNVAULT_CPFP_VALUE
          + DUST_LIMIT > dep.prev_txout.value
      · simp [UnvaultTransaction_new, h1, h2] <;> omega
      · simp [UnvaultTransaction_new, h1, h2] <;> omega
  · by_cases h3 : dep.prev_txout.value < REVAULTING_TX_FEERATE * (sw + dep.max_sat_weight)
    · simp [EmergencyTransaction_new, h3]
    · simp [EmergencyTransaction_new, h3] <;> omega
  · by_cases h4 : txin.prev_txout.value < REVAULTING_TX_FEERATE * (sw + txin.max_sat_weight)
    · simp [CancelTransaction_new, h4] <;> omega
    · simp [CancelTransaction_new, h4] <;> omega
  · by_cases h5 : txin.prev_txout.value < REVAULTING_TX_FEERATE * (sw + txin.max_sat_weight)
    · simp [UnvaultEmergencyTransaction_new, h5] <;> omega
    · simp [UnvaultEmergencyTransaction_new, h5] <;> omega

/-- A deposit/unvault input whose revocation fee (22000000) exceeds the
insane-fee ceiling but whose value still covers it. -/
def depHuge : RevaultTxInData :=
  ⟨8, 0, 0, ⟨100000000, Script.wsh [44]⟩, Option.some [44], 0⟩

/-- C5, counterexample: an Emergency transaction whose computed fee,
22 * 1000000 = 22000000, exceeds the 20000000 insane-fee ceiling is still
constructed successfully: only the Unvault constructor enforces the
ceiling. -/
theorem C5_counterexample :
    (EmergencyTransaction_new depHuge Option.none (Script.other [9]) 1000000 0).isOk = true ∧
    22 * (1000000 + 0) > INSANE_FEES := by
  constructor
  · decide
  · decide

/-- C5, amended: only `UnvaultTransaction::new` enforces the insane-fee
ceiling (failing with `InsaneFees` exactly when its fee exceeds 20000000);
the three revocation constructors perform no such check — whenever the
funding value covers the fee they succeed, however large the fee. -/
theorem C5_insane_fees_policy (dep txin : RevaultTxInData) (fb : Option RevaultTxInData)
    (uws cws dws : Bytes) (emer_spk : Script) (sw lt : Nat) :
    (UnvaultTransaction_new dep uws cws sw lt = Except.error TransactionCreationError.InsaneFees ↔
      UNVAULT_TX_FEERATE * (sw + dep.max_sat_weight) > INSANE_FEES) ∧
    (REVAULTING_TX_FEERATE * (sw + dep.max_sat_weight) ≤ dep.prev_txout.value →
      (EmergencyTransaction_new dep fb emer_spk sw lt).isOk = true) ∧
    (REVAULTING_TX_FEERATE * (sw + txin.max_sat_weight) ≤ txin.prev_txout.value →
      (CancelTransaction_new txin fb dws sw lt).isSome = true) ∧
    (REVAULTING_TX_FEERATE * (sw + txin.max_sat_weight) ≤ txin.prev_txout.value →
      (UnvaultEmergencyTransaction_new txin fb emer_spk sw lt).isSome = true) := by
  refine ⟨?_, ?_, ?_, ?_⟩
  · by_cases h1 : UNVAULT_TX_FEERATE * (sw + dep.max_sat_weight) > INSANE_FEES
    · simp [UnvaultTransaction_new, h1]
    · by_cases h2 : UNVAULT_TX_FEERATE * (sw + dep.max_sat_weight) + UNVAULT_CPFP_VALUE
          + DUST_LIMIT > dep.prev_txout.value
      · simp [UnvaultTransaction_new, h1, h2] <;> omega
      · simp [UnvaultTransaction_new, h1, h2] <;> omega
  · intro h3
    have h3' : ¬ dep.prev_txout.value < REVAULTING_TX_FEERATE * (sw + dep.max_sat_weight) :=
      not_lt.mpr h3
    simp [EmergencyTransaction_new, h3', Except.isOk, Except.toBool]
  · intro h4
    have h4' : ¬ txin.prev_txout.value < REVAULTING_TX_FEERATE * (sw + txin.max_sat_weight) :=
      not_lt.mpr h4
    simp [CancelTransaction_new, h4']
  · intro h5
    have h5' : ¬ txin.prev_txout.value < REVAULTING_TX_FEERATE * (sw + txin.max_sat_weight) :=
      not_lt.mpr h5
    simp [UnvaultEmergencyTransaction_new, h5']

/-- C5, witness: the amended policy at concrete inputs — the revocation
constructor accepting an over-ceiling fee, and the Unvault constructor
rejecting one. -/
theorem C5_insane_fees_policy_witness :
    (EmergencyTransaction_new depHuge Option.none (Script.other [8]) 1000000 0).isOk = true ∧
    UnvaultTransaction_new depHuge [44] [45] 4000000 0
      = Except.error TransactionCreationError.InsaneFees := by
  constructor
  · exact (C5_insane_fees_policy depHuge depHuge Option.none [44] [45] [46]
      (Script.other [8]) 1000000 0).2.1 (by decide)
  · exact ((C5_insane_fees_policy depHuge depHuge Option.none [44] [45] [46]
      (Script.other [8]) 4000000 0).1).mpr (by decide)

/-- The per-input field conditions of the common sanity checks: a declared
previous txout of a native segwit v0 kind, no legacy previous transaction,
no legacy redeem script. -/
def inputFieldsOkB (i : PsbtIn) : Bool :=
  match i.witness_utxo with
  | Option.some u =>
    (u.script_pubkey.is_v0_p2wsh || u.script_pubkey.is_v0_p2wpkh)
      && i.non_witness_utxo.isNone && i.redeem_script.isNone
  | Option.none => false

/-- Whether a PSBT input is finalized. -/
def finalB (i : PsbtIn) : Bool := i.final_script_witness.isSome

/-- The error reported for a field-invalid input: `MissingWitnessUtxo` when
the previous txout is absent, `InvalidInputField` otherwise. -/
def fieldError (i : PsbtIn) : PsbtValidationError :=
  match i.witness_utxo with
  | Option.none => .MissingWitnessUtxo i
  | Option.some _ => .InvalidInputField i

/-- Normal form of one step of the sanity-check input loop. -/
theorem checkSanityInput_eq (acc : Option Bool) (i : PsbtIn) :
    checkSanityInput acc i =
      if inputFieldsOkB i = false then .error (fieldError i)
      else if finalB i = true then
        (if acc = Option.some false || i.witness_script.isSome then
          .error .PartiallyFinalized
         else .ok (Option.some true))
      else
        (if acc = Option.some true then .error .PartiallyFinalized
         else .ok (Option.some false)) := by
  cases hwu : i.witness_utxo with
  | none => simp [checkSanityInput, inputFieldsOkB, fieldError, hwu]
  | some u =>
    by_cases hspk : (u.script_pubkey.is_v0_p2wsh || u.script_pubkey.is_v0_p2wpkh) = true
    · by_cases hnwu : i.non_witness_utxo = Option.none
      · by_cases hrs : i.redeem_script = Option.none
        · simp [checkSanityInput, inputFieldsOkB, fieldError, finalB, hwu, hspk, hnwu, hrs]
        · obtain ⟨t, ht⟩ := Option.ne_none_iff_exists'.mp hrs
          simp [checkSanityInput, inputFieldsOkB, fieldError, hwu, hspk, hnwu, ht]
      · obtain ⟨t, ht⟩ := Option.ne_none_iff_exists'.mp hnwu
        simp [checkSanityInput, inputFieldsOkB, fieldError, hwu, hspk, ht]
    · simp [checkSanityInput, inputFieldsOkB, fieldError, hwu, hspk]

/-- What an accumulator state demands of the remaining inputs for the loop
to succeed. -/
def accRequires : Option Bool → List PsbtIn → Prop
  | Option.none, l => (∀ i ∈ l, finalB i = true) ∨ (∀ i ∈ l, finalB i = false)
  | Option.some true, l => ∀ i ∈ l, finalB i = true
  | Option.some false, l => ∀ i ∈ l, finalB i = false

/-- Characterization of the sanity-check input loop: it succeeds exactly
when every input passes the field checks, no finalized input still carries
a witness script, and the inputs' finality states are as the accumulator
demands (all equal, when starting from the unknown state). -/
theorem checkSanityInputs_ok_iff (l : List PsbtIn) : ∀ (acc : Option Bool),
    checkSanityInputs acc l = Except.ok () ↔
      ((∀ i ∈ l, inputFieldsOkB i = true) ∧
       (∀ i ∈ l, finalB i = true → i.witness_script = Option.none) ∧
       accRequires acc l) := by
  induction l with
  | nil =>
    intro acc
    cases acc with
    | none => simp [checkSanityInputs, accRequires]
    | some b => cases b <;> simp [checkSanityInputs, accRequires]
  | cons i rest ih =>
    intro acc
    by_cases hf : inputFieldsOkB i = false
    · have hstep : checkSanityInput acc i = Except.error (fieldError i) := by
        rw [checkSanityInput_eq, if_pos hf]
      simp only [checkSanityInputs, hstep]
      constructor
      · intro h
        exact absurd h (by simp)
      · rintro ⟨hfields, -, -⟩
        have hcontra := hfields i (by simp)
        rw [hcontra] at hf
        exact absurd hf (by simp)
    · have hf' : inputFieldsOkB i = true := by
        cases hx : inputFieldsOkB i
        · exact absurd hx hf
        · rfl
      by_cases hfin : finalB i = true
      · by_cases hws : i.witness_script.isSome = true
        · have hstep : checkSanityInput acc i
              = Except.error PsbtValidationError.PartiallyFinalized := by
            rw [checkSanityInput_eq]
            simp [hf', hfin, hws]
          simp only [checkSanityInputs, hstep]
          constructor
          · intro h
            exact absurd h (by simp)
          · rintro ⟨-, hwss, -⟩
            have hcontra := hwss i (by simp) hfin
            rw [hcontra] at hws
            exact absurd hws (by simp)
        · have hws' : i.witness_script = Option.none := by
            cases hx : i.witness_script with
            | none => rfl
            | some w => rw [hx] at hws; exact absurd rfl hws
          cases acc with
          | none =>
            have hstep : checkSanityInput Option.none i = Except.ok (Option.some true) := by
              rw [checkSanityInput_eq]
              simp [hf', hfin, hws]
            simp only [checkSanityInputs, hstep]
            rw [ih (Option.some true)]
            simp only [accRequires]
            constructor
            · rintro ⟨h1, h2, h3⟩
              refine ⟨?_, ?_, Or.inl ?_⟩
              · intro j hj
                rcases List.mem_cons.mp hj with hj | hj
                · rw [hj]; exact hf'
                · exact h1 j hj
              · intro j hj hjf
                rcases List.mem_cons.mp hj with hj | hj
                · rw [hj]; exact hws'
                · exact h2 j hj hjf
              · intro j hj
                rcases List.mem_cons.mp hj with hj | hj
                · rw [hj]; exact hfin
                · exact h3 j hj
            · rintro ⟨h1, h2, h3⟩
              refine ⟨?_, ?_, ?_⟩
              · intro j hj; exact h1 j (by simp [hj])
              · intro j hj hjf; exact h2 j (by simp [hj]) hjf
              · rcases h3 with h3 | h3
                · intro j hj; exact h3 j (by simp [hj])
                · exact absurd (h3 i (by simp)) (by simp [hfin])
          | some b =>
            cases b with
            | true =>
              have hstep : checkSanityInput (Option.some true) i
                  = Except.ok (Option.some true) := by
                rw [checkSanityInput_eq]
                simp [hf', hfin, hws]
              simp only [checkSanityInputs, hstep]
              rw [ih (Option.some true)]
              simp only [accRequires]
              constructor
              · rintro ⟨h1, h2, h3⟩
                refine ⟨?_, ?_, ?_⟩
                · intro j hj
                  rcases List.mem_cons.mp hj with hj | hj
                  · rw [hj]; exact hf'
                  · exact h1 j hj
                · intro j hj hjf
                  rcases List.mem_cons.mp hj with hj | hj
                  · rw [hj]; exact hws'
                  · exact h2 j hj hjf
                · intro j hj
                  rcases List.mem_cons.mp hj with hj | hj
                  · rw [hj]; exact hfin
                  · exact h3 j hj
              · rintro ⟨h1, h2, h3⟩
                refine ⟨?_, ?_, ?_⟩
                · intro j hj; exact h1 j (by simp [hj])
                · intro j hj hjf; exact h2 j (by simp [hj]) hjf
                · intro j hj; exact h3 j (by simp [hj])
            | false =>
              have hstep : checkSanityInput (Option.some false) i
                  = Except.error PsbtValidationError.PartiallyFinalized := by
                rw [checkSanityInput_eq]
                simp [hf', hfin]
              simp only [checkSanityInputs, hstep]
              simp only [accRequires]
              constructor
              · intro h
                exact absurd h (by simp)
              · rintro ⟨-, -, h3⟩
                exact absurd (h3 i (by simp)) (by simp [hfin])
      · have hfin' : finalB i = false := by
          cases hx : finalB i
          · rfl
          · exact absurd hx hfin
        cases acc with
        | none =>
          have hstep : checkSanityInput Option.none i = Except.ok (Option.some false) := by
            rw [checkSanityInput_eq]
            simp [hf', hfin']
          simp only [checkSanityInputs, hstep]
          rw [ih (Option.some false)]
          simp only [accRequires]
          constructor
          · rintro ⟨h1, h2, h3⟩
            refine ⟨?_, ?_, Or.inr ?_⟩
            · intro j hj
              rcases List.mem_cons.mp hj with hj | hj
              · rw [hj]; exact hf'
              · exact h1 j hj
            · intro j hj hjf
              rcases List.mem_cons.mp hj with hj | hj
              · rw [hj] at hjf; rw [hjf] at hfin'; exact absurd hfin' (by simp)
              · exact h2 j hj hjf
            · intro j hj
              rcases List.mem_cons.mp hj with hj | hj
              · rw [hj]; exact hfin'
              · exact h3 j hj
          · rintro ⟨h1, h2, h3⟩
            refine ⟨?_, ?_, ?_⟩
            · intro j hj; exact h1 j (by simp [hj])
            · intro j hj hjf; exact h2 j (by simp [hj]) hjf
            · rcases h3 with h3 | h3
              · exact absurd (h3 i (by simp)) (by simp [hfin'])
              · intro j hj; exact h3 j (by simp [hj])
        | some b =>
          cases b with
          | true =>
            have hstep : checkSanityInput (Option.some true) i
                = Except.error PsbtValidationError.PartiallyFinalized := by
              rw [checkSanityInput_eq]
              simp [hf', hfin']
            simp only [checkSanityInputs, hstep]
            simp only [accRequires]
            constructor
            · intro h
              exact absurd h (by simp)
            · rintro ⟨-, -, h3⟩
              exact absurd (h3 i (by simp)) (by simp [hfin'])
          | false =>
            have hstep : checkSanityInput (Option.some false) i
                = Except.ok (Option.some false) := by
              rw [checkSanityInput_eq]
              simp [hf', hfin']
            simp only [checkSanityInputs, hstep]
            rw [ih (Option.some false)]
            simp only [accRequires]
            constructor
            · rintro ⟨h1, h2, h3⟩
              refine ⟨?_, ?_, ?_⟩
              · intro j hj
                rcases List.mem_cons.mp hj with hj | hj
                · rw [hj]; exact hf'
                · exact h1 j hj
              · intro j hj hjf
                rcases List.mem_cons.mp hj with hj | hj
                · rw [hj] at hjf; rw [hjf] at hfin'; exact absurd hfin' (by simp)
                · exact h2 j hj hjf
              · intro j hj
                rcases List.mem_cons.mp hj with hj | hj
                · rw [hj]; exact hfin'
                · exact h3 j hj
            · rintro ⟨h1, h2, h3⟩
              refine ⟨?_, ?_, ?_⟩
              · intro j hj; exact h1 j (by simp [hj])
              · intro j hj hjf; exact h2 j (by simp [hj]) hjf
              · intro j hj; exact h3 j (by simp [hj])

/-- When every input passes the field checks, the loop can only succeed or
report `PartiallyFinalized`. -/
theorem checkSanityInputs_fields (l : List PsbtIn) : ∀ (acc : Option Bool),
    (∀ i ∈ l, inputFieldsOkB i = true) →
    checkSanityInputs acc l = Except.ok () ∨
    checkSanityInputs acc l = Except.error PsbtValidationError.PartiallyFinalized := by
  induction l with
  | nil =>
    intro acc _
    exact Or.inl rfl
  | cons i rest ih =>
    intro acc hfields
    have hf' := hfields i (by simp)
    have hstep : checkSanityInput acc i = Except.error PsbtValidationError.PartiallyFinalized
        ∨ ∃ acc', checkSanityInput acc i = Except.ok acc' := by
      rw [checkSanityInput_eq, if_neg (by simp [hf'])]
      by_cases hfin : finalB i = true
      · by_cases hc : (acc = Option.some false || i.witness_script.isSome) = true
        · simp [hfin, hc]
        · simp [hfin, hc]
      · by_cases hc : acc = Option.some true
        · simp [hfin, hc]
        · simp [hfin, hc]
    rcases hstep with hstep | ⟨acc', hstep⟩
    · simp only [checkSanityInputs, hstep]
      exact Or.inr (by simp)
    · simp only [checkSanityInputs, hstep]
      exact ih acc' (fun j hj => hfields j (by simp [hj]))

/-- A prefix of field-valid, non-finalized inputs only moves the
accumulator to the known-non-final state. -/
theorem checkSanityInputs_append (pre : List PsbtIn) : ∀ (rest : List PsbtIn) (acc : Option Bool),
    (∀ j ∈ pre, inputFieldsOkB j = true ∧ finalB j = false) →
    acc ≠ Option.some true →
    checkSanityInputs acc (pre ++ rest)
      = checkSanityInputs (if pre.isEmpty then acc else Option.some false) rest := by
  induction pre with
  | nil =>
    intro rest acc _ _
    simp
  | cons j pre ih =>
    intro rest acc hpre hacc
    have hj := hpre j (by simp)
    have hstep : checkSanityInput acc j = Except.ok (Option.some false) := by
      rw [checkSanityInput_eq]
      simp [hj.1, hj.2, hacc]
    simp only [List.cons_append, checkSanityInputs, hstep, List.append_eq]
    rw [ih rest (Option.some false) (fun k hk => hpre k (by simp [hk])) (by simp)]
    simp

/-- The common sanity checks return the PSBT they were given. -/
theorem psbt_common_sanity_checks_ok_eq (psbt q : Psbt)
    (h : psbt_common_sanity_checks psbt = Except.ok q) : q = psbt := by
  unfold psbt_common_sanity_checks at h
  by_cases h1 : psbt.unsigned_tx.version ≠ TX_VERSION
  · rw [if_pos h1] at h
    exact absurd h (by simp)
  · rw [if_neg h1] at h
    by_cases h2 : psbt.unsigned_tx.input.length ≠ psbt.inputs.length
    · rw [if_pos h2] at h
      exact absurd h (by simp)
    · rw [if_neg h2] at h
      by_cases h3 : psbt.unsigned_tx.output.length ≠ psbt.outputs.length
      · rw [if_pos h3] at h
        exact absurd h (by simp)
      · rw [if_neg h3] at h
        cases hloop : checkSanityInputs Option.none psbt.inputs with
        | error e => rw [hloop] at h; exact absurd h (by simp)
        | ok u => rw [hloop] at h; simpa using h.symm

/-- With the version and both counts valid, the common checks reduce to the
input loop. -/
theorem psbt_common_sanity_checks_counts (psbt : Psbt)
    (h1 : psbt.unsigned_tx.version = TX_VERSION)
    (h2 : psbt.unsigned_tx.input.length = psbt.inputs.length)
    (h3 : psbt.unsigned_tx.output.length = psbt.outputs.length) :
    psbt_common_sanity_checks psbt =
      match checkSanityInputs Option.none psbt.inputs with
      | .error e => .error e
      | .ok _ => .ok psbt := by
  unfold psbt_common_sanity_checks
  rw [if_neg (by simp [h1]), if_neg (by simp [h2]), if_neg (by simp [h3])]

/-- C8: the common structural validator reports each violation with its
specific error — wrong skeleton version, input/output count mismatches
between skeleton and metadata, a first offending input lacking its previous
txout (`MissingWitnessUtxo`) or carrying an invalid field
(`InvalidInputField`: non-segwit previous script, legacy previous
transaction, or legacy redeem script), and mixed finalization or a final
input still carrying a witness script (`PartiallyFinalized`) — and accepts
a PSBT, unchanged, exactly when none of the violations is present. -/
theorem C8_common_sanity_spec (psbt : Psbt) :
    (psbt.unsigned_tx.version ≠ TX_VERSION →
      psbt_common_sanity_checks psbt
        = .error (.InvalidTransactionVersion psbt.unsigned_tx.version)) ∧
    (psbt.unsigned_tx.version = TX_VERSION →
     psbt.unsigned_tx.input.length ≠ psbt.inputs.length →
      psbt_common_sanity_checks psbt
        = .error (.InputCountMismatch psbt.unsigned_tx.input.length psbt.inputs.length)) ∧
    (psbt.unsigned_tx.version = TX_VERSION →
     psbt.unsigned_tx.input.length = psbt.inputs.length →
     psbt.unsigned_tx.output.length ≠ psbt.outputs.length →
      psbt_common_sanity_checks psbt
        = .error (.OutputCountMismatch psbt.unsigned_tx.output.length psbt.outputs.length)) ∧
    (psbt.unsigned_tx.version = TX_VERSION →
     psbt.unsigned_tx.input.length = psbt.inputs.length →
     psbt.unsigned_tx.output.length = psbt.outputs.length →
     ∀ pre i post, psbt.inputs = pre ++ i :: post →
      (∀ j ∈ pre, inputFieldsOkB j = true ∧ finalB j = false) →
      i.witness_utxo = Option.none →
      psbt_common_sanity_checks psbt = .error (.MissingWitnessUtxo i)) ∧
    (psbt.unsigned_tx.version = TX_VERSION →
     psbt.unsigned_tx.input.length = psbt.inputs.length →
     psbt.unsigned_tx.output.length = psbt.outputs.length →
     ∀ pre i post, psbt.inputs = pre ++ i :: post →
      (∀ j ∈ pre, inputFieldsOkB j = true ∧ finalB j = false) →
      inputFieldsOkB i = false →
      i.witness_utxo ≠ Option.none →
      psbt_common_sanity_checks psbt = .error (.InvalidInputField i)) ∧
    (psbt.unsigned_tx.version = TX_VERSION →
     psbt.unsigned_tx.input.length = psbt.inputs.length →
     psbt.unsigned_tx.output.length = psbt.outputs.length →
     (∀ i ∈ psbt.inputs, inputFieldsOkB i = true) →
     ((∃ i ∈ psbt.inputs, finalB i = true ∧ i.witness_script.isSome = true) ∨
      ((∃ i ∈ psbt.inputs, finalB i = true) ∧ (∃ i ∈ psbt.inputs, finalB i = false))) →
      psbt_common_sanity_checks psbt = .error .PartiallyFinalized) ∧
    (psbt_common_sanity_checks psbt = .ok psbt ↔
      (psbt.unsigned_tx.version = TX_VERSION ∧
       psbt.unsigned_tx.input.length = psbt.inputs.length ∧
       psbt.unsigned_tx.output.length = psbt.outputs.length ∧
       (∀ i ∈ psbt.inputs, inputFieldsOkB i = true) ∧
       (∀ i ∈ psbt.inputs, finalB i = true → i.witness_script = Option.none) ∧
       ((∀ i ∈ psbt.inputs, finalB i = true) ∨ (∀ i ∈ psbt.inputs, finalB i = false)))) ∧
    (∀ q, psbt_common_sanity_checks psbt = .ok q → q = psbt) := by
  refine ⟨?_, ?_, ?_, ?_, ?_, ?_, ?_, ?_⟩
  · intro h1
    unfold psbt_common_sanity_checks
    rw [if_pos h1]
  · intro h1 h2
    unfold psbt_common_sanity_checks
    rw [if_neg (by simp [h1]), if_pos h2]
  · intro h1 h2 h3
    unfold psbt_common_sanity_checks
    rw [if_neg (by simp [h1]), if_neg (by simp [h2]), if_pos h3]
  · intro h1 h2 h3 pre i post hsplit hpre hwu
    have hred := psbt_common_sanity_checks_counts psbt h1 h2 h3
    have hfb : inputFieldsOkB i = false := by simp [inputFieldsOkB, hwu]
    have hstep : ∀ acc, checkSanityInput acc i
        = Except.error (PsbtValidationError.MissingWitnessUtxo i) := by
      intro acc
      rw [checkSanityInput_eq, if_pos (by simp [hfb])]
      simp [fieldError, hwu]
    have hloop : checkSanityInputs Option.none psbt.inputs
        = Except.error (PsbtValidationError.MissingWitnessUtxo i) := by
      rw [hsplit, checkSanityInputs_append pre (i :: post) Option.none hpre (by simp)]
      simp only [checkSanityInputs, hstep]
    rw [hred, hloop]
  · intro h1 h2 h3 pre i post hsplit hpre hfb hwu
    obtain ⟨u, hu⟩ := Option.ne_none_iff_exists'.mp hwu
    have hred := psbt_common_sanity_checks_counts psbt h1 h2 h3
    have hstep : ∀ acc, checkSanityInput acc i
        = Except.error (PsbtValidationError.InvalidInputField i) := by
      intro acc
      rw [checkSanityInput_eq, if_pos (by simp [hfb])]
      simp [fieldError, hu]
    have hloop : checkSanityInputs Option.none psbt.inputs
        = Except.error (PsbtValidationError.InvalidInputField i) := by
      rw [hsplit, checkSanityInputs_append pre (i :: post) Option.none hpre (by simp)]
      simp only [checkSanityInputs, hstep]
    rw [hred, hloop]
  · intro h1 h2 h3 hfields hviol
    have hred := psbt_common_sanity_checks_counts psbt h1 h2 h3
    rcases checkSanityInputs_fields psbt.inputs Option.none hfields with hok | hpf
    · exfalso
      have hcond := (checkSanityInputs_ok_iff psbt.inputs Option.none).mp hok
      rcases hviol with ⟨i, hi, hfin, hws⟩ | ⟨⟨i, hi, hf⟩, ⟨j, hj, hnf⟩⟩
      · have := hcond.2.1 i hi hfin
        rw [this] at hws
        exact absurd hws (by simp)
      · rcases hcond.2.2 with hall | hall
        · have := hall j hj
          rw [this] at hnf
          exact absurd hnf (by simp)
        · have := hall i hi
          rw [this] at hf
          exact absurd hf (by simp)
    · rw [hred, hpf]
  · constructor
    · intro hok
      by_cases h1 : psbt.unsigned_tx.version = TX_VERSION
      · by_cases h2 : psbt.unsigned_tx.input.length = psbt.inputs.length
        · by_cases h3 : psbt.unsigned_tx.output.length = psbt.outputs.length
          · have hred := psbt_common_sanity_checks_counts psbt h1 h2 h3
            rw [hred] at hok
            cases hloop : checkSanityInputs Option.none psbt.inputs with
            | error e =>
              rw [hloop] at hok
              exact absurd hok (by simp)
            | ok u =>
              have hcond := (checkSanityInputs_ok_iff psbt.inputs Option.none).mp
                (by rw [hloop])
              exact ⟨h1, h2, h3, hcond.1, hcond.2.1, hcond.2.2⟩
          · unfold psbt_common_sanity_checks at hok
            rw [if_neg (by simp [h1]), if_neg (by simp [h2]), if_pos h3] at hok
            exact absurd hok (by simp)
        · unfold psbt_common_sanity_checks at hok
          rw [if_neg (by simp [h1]), if_pos h2] at hok
          exact absurd hok (by simp)
      · unfold psbt_common_sanity_checks at hok
        rw [if_pos h1] at hok
        exact absurd hok (by simp)
    · rintro ⟨h1, h2, h3, h4, h5, h6⟩
      have hred := psbt_common_sanity_checks_counts psbt h1 h2 h3
      have hloop : checkSanityInputs Option.none psbt.inputs = Except.ok () :=
        (checkSanityInputs_ok_iff psbt.inputs Option.none).mpr ⟨h4, h5, h6⟩
      rw [hred, hloop]
  · intro q hq
    exact psbt_common_sanity_checks_ok_eq psbt q hq

/-- A PSBT whose skeleton version is not 2. -/
def psbtBadVersion : Psbt := ⟨⟨1, 0, [], []⟩, [], []⟩

/-- A PSBT with one skeleton input but no input metadata. -/
def psbtBadCounts : Psbt := ⟨⟨2, 0, [⟨0, 0, 0⟩], []⟩, [], []⟩

/-- An input metadata entry with no declared previous txout. -/
def pinNoWu : PsbtIn := {}

/-- A PSBT whose single input lacks its previous txout. -/
def psbtNoWu : Psbt := ⟨⟨2, 0, [⟨0, 0, 0⟩], []⟩, [pinNoWu], []⟩

/-- C8, witness: each specific error, and an acceptance, at concrete
PSBTs. -/
theorem C8_common_sanity_spec_witness :
    psbt_common_sanity_checks psbtBadVersion
      = .error (.InvalidTransactionVersion 1) ∧
    psbt_common_sanity_checks psbtBadCounts
      = .error (.InputCountMismatch 1 0) ∧
    psbt_common_sanity_checks psbtNoWu
      = .error (.MissingWitnessUtxo pinNoWu) ∧
    psbt_common_sanity_checks psbtMixed
      = .error .PartiallyFinalized ∧
    psbt_common_sanity_checks psbtOneIn = .ok psbtOneIn := by
  refine ⟨?_, ?_, ?_, ?_, ?_⟩
  · exact (C8_common_sanity_spec psbtBadVersion).1 (by decide)
  · exact (C8_common_sanity_spec psbtBadCounts).2.1 (by decide) (by decide)
  · exact (C8_common_sanity_spec psbtNoWu).2.2.2.1 (by decide) (by decide) (by decide)
      [] pinNoWu [] (by decide) (by decide) (by decide)
  · exact (C8_common_sanity_spec psbtMixed).2.2.2.2.2.1 (by decide) (by decide)
      (by decide) (by decide)
      (Or.inr ⟨⟨finalIn, by decide, by decide⟩, ⟨nonFinalIn, by decide, by decide⟩⟩)
  · exact ((C8_common_sanity_spec psbtOneIn).2.2.2.2.2.2.1).mpr (by decide)

/-- A validator built on the common checks accepts only the PSBT it was
given. -/
theorem validateWith_ok_eq (checks : Psbt → Except PsbtValidationError Unit)
    (psbt q : Psbt) (h : validateWith checks psbt = Except.ok q) : q = psbt := by
  unfold validateWith at h
  cases hc : psbt_common_sanity_checks psbt with
  | error e =>
    rw [hc] at h
    exact absurd h (by simp)
  | ok p =>
    rw [hc] at h
    have hp := psbt_common_sanity_checks_ok_eq psbt p hc
    have h2 : (match checks p with
        | Except.error e => Except.error e
        | Except.ok _ => (Except.ok p : Except PsbtValidationError Psbt))
        = Except.ok q := h
    cases hk : checks p with
    | error e =>
      rw [hk] at h2
      exact absurd h2 (by simp)
    | ok u =>
      rw [hk] at h2
      simp at h2
      rw [← h2]
      exact hp

/-- Serializing an accepted PSBT and parsing it back succeeds with the
same PSBT. -/
theorem validateWith_roundtrip (checks : Psbt → Except PsbtValidationError Unit)
    (psbt : Psbt) (h : validateWith checks psbt = Except.ok psbt) :
    from_psbt_serialized (validateWith checks) (as_psbt_serialized psbt)
      = Except.ok psbt := by
  unfold from_psbt_serialized
  rw [consensus_decode_psbt_enc]
  simp [h]

/-- C9: for each of the five transaction variants, a PSBT structure the
variant's parser accepts is accepted unchanged, and re-serializing it and
parsing it again reproduces the identical structure and hence
byte-identical serialized output. -/
theorem C9_psbt_roundtrip (psbt : Psbt) :
    ((∀ q, unvaultValidate psbt = Except.ok q → q = psbt) ∧
     (unvaultValidate psbt = Except.ok psbt →
       unvault_from_psbt_serialized (as_psbt_serialized psbt) = Except.ok psbt ∧
       ∀ q, unvault_from_psbt_serialized (as_psbt_serialized psbt) = Except.ok q →
         as_psbt_serialized q = as_psbt_serialized psbt)) ∧
    ((∀ q, cancelValidate psbt = Except.ok q → q = psbt) ∧
     (cancelValidate psbt = Except.ok psbt →
       cancel_from_psbt_serialized (as_psbt_serialized psbt) = Except.ok psbt ∧
       ∀ q, cancel_from_psbt_serialized (as_psbt_serialized psbt) = Except.ok q →
         as_psbt_serialized q = as_psbt_serialized psbt)) ∧
    ((∀ q, emergencyValidate psbt = Except.ok q → q = psbt) ∧
     (emergencyValidate psbt = Except.ok psbt →
       emergency_from_psbt_serialized (as_psbt_serialized psbt) = Except.ok psbt ∧
       ∀ q, emergency_from_psbt_serialized (as_psbt_serialized psbt) = Except.ok q →
         as_psbt_serialized q = as_psbt_serialized psbt)) ∧
    ((∀ q, unvaultEmergencyValidate psbt = Except.ok q → q = psbt) ∧
     (unvaultEmergencyValidate psbt = Except.ok psbt →
       unvault_emergency_from_psbt_serialized (as_psbt_serialized psbt) = Except.ok psbt ∧
       ∀ q, unvault_emergency_from_psbt_serialized (as_psbt_serialized psbt) = Except.ok q →
         as_psbt_serialized q = as_psbt_serialized psbt)) ∧
    ((∀ q, spendValidate psbt = Except.ok q → q = psbt) ∧
     (spendValidate psbt = Except.ok psbt →
       spend_from_psbt_serialized (as_psbt_serialized psbt) = Except.ok psbt ∧
       ∀ q, spend_from_psbt_serialized (as_psbt_serialized psbt) = Except.ok q →
         as_psbt_serialized q = as_psbt_serialized psbt)) := by
  refine ⟨⟨?_, ?_⟩, ⟨?_, ?_⟩, ⟨?_, ?_⟩, ⟨?_, ?_⟩, ⟨?_, ?_⟩⟩
  · exact fun q => validateWith_ok_eq unvaultChecks psbt q
  · intro h
    have hrt : unvault_from_psbt_serialized (as_psbt_serialized psbt) = Except.ok psbt :=
      validateWith_roundtrip unvaultChecks psbt h
    refine ⟨hrt, ?_⟩
    intro q hq
    rw [hrt] at hq
    simp at hq
    rw [hq]
  · exact fun q => validateWith_ok_eq cancelChecks psbt q
  · intro h
    have hrt : cancel_from_psbt_serialized (as_psbt_serialized psbt) = Except.ok psbt :=
      validateWith_roundtrip cancelChecks psbt h
    refine ⟨hrt, ?_⟩
    intro q hq
    rw [hrt] at hq
    simp at hq
    rw [hq]
  · exact fun q => validateWith_ok_eq emergencyChecks psbt q
  · intro h
    have hrt : emergency_from_psbt_serialized (as_psbt_serialized psbt) = Except.ok psbt :=
      validateWith_roundtrip emergencyChecks psbt h
    refine ⟨hrt, ?_⟩
    intro q hq
    rw [hrt] at hq
    simp at hq
    rw [hq]
  · exact fun q => validateWith_ok_eq emergencyChecks psbt q
  · intro h
    have hrt : unvault_emergency_from_psbt_serialized (as_psbt_serialized psbt) = Except.ok psbt :=
      validateWith_roundtrip emergencyChecks psbt h
    refine ⟨hrt, ?_⟩
    intro q hq
    rw [hrt] at hq
    simp at hq
    rw [hq]
  · exact fun q => validateWith_ok_eq spendChecks psbt q
  · intro h
    have hrt : spend_from_psbt_serialized (as_psbt_serialized psbt) = Except.ok psbt :=
      validateWith_roundtrip spendChecks psbt h
    refine ⟨hrt, ?_⟩
    intro q hq
    rw [hrt] at hq
    simp at hq
    rw [hq]

/-- A PSBT accepted by the Unvault parser. -/
def psbtUnvaultEx : Psbt :=
  { unsigned_tx := ⟨2, 0, [⟨0, 0, 0⟩],
      [⟨500000, Script.wsh [11]⟩, ⟨30000, Script.wsh [12]⟩]⟩,
    inputs := [psbtOneInInput],
    outputs := [{ witness_script := Option.some [11] },
                { witness_script := Option.some [12] }] }

/-- A revocation-shaped input: P2WSH previous output, ALL|ANYONECANPAY. -/
def revIn : PsbtIn :=
  { witness_utxo := Option.some ⟨300000, Script.wsh [6]⟩,
    witness_script := Option.some [6],
    sighash_type := Option.some SigHashType.allPlusAnyoneCanPay }

/-- A PSBT accepted by the Cancel parser. -/
def psbtCancelEx : Psbt :=
  { unsigned_tx := ⟨2, 0, [⟨0, 0, 0⟩], [⟨290000, Script.wsh [13]⟩]⟩,
    inputs := [revIn],
    outputs := [{ witness_script := Option.some [13] }] }

/-- A PSBT accepted by the Emergency and UnvaultEmergency parsers. -/
def psbtEmerEx : Psbt :=
  { unsigned_tx := ⟨2, 0, [⟨0, 0, 0⟩], [⟨290000, Script.other [9]⟩]⟩,
    inputs := [revIn],
    outputs := [{}] }

/-- A PSBT accepted by the Spend parser. -/
def psbtSpendEx : Psbt :=
  { unsigned_tx := ⟨2, 0, [⟨0, 0, 0⟩], [⟨1, Script.other [3]⟩]⟩,
    inputs := [psbtOneInInput],
    outputs := [{}] }

/-- C9, witness: the five round-trips at concrete accepted PSBTs. -/
theorem C9_psbt_roundtrip_witness :
    unvault_from_psbt_serialized (as_psbt_serialized psbtUnvaultEx)
      = Except.ok psbtUnvaultEx ∧
    cancel_from_psbt_serialized (as_psbt_serialized psbtCancelEx)
      = Except.ok psbtCancelEx ∧
    emergency_from_psbt_serialized (as_psbt_serialized psbtEmerEx)
      = Except.ok psbtEmerEx ∧
    unvault_emergency_from_psbt_serialized (as_psbt_serialized psbtEmerEx)
      = Except.ok psbtEmerEx ∧
    spend_from_psbt_serialized (as_psbt_serialized psbtSpendEx)
      = Except.ok psbtSpendEx := by
  refine ⟨?_, ?_, ?_, ?_, ?_⟩
  · exact ((C9_psbt_roundtrip psbtUnvaultEx).1.2 (by decide)).1
  · exact ((C9_psbt_roundtrip psbtCancelEx).2.1.2 (by decide)).1
  · exact ((C9_psbt_roundtrip psbtEmerEx).2.2.1.2 (by decide)).1
  · exact ((C9_psbt_roundtrip psbtEmerEx).2.2.2.1.2 (by decide)).1
  · exact ((C9_psbt_roundtrip psbtSpendEx).2.2.2.2.2 (by decide)).1

/-- Inputs satisfying the Spend conditions pass the Spend input loop. -/
theorem checkSpendInputs_ok (l : List PsbtIn)
    (h : ∀ i ∈ l, i.final_script_witness = Option.none →
      (i.sighash_type = Option.some SigHashType.all ∧
       ∃ ws, i.witness_script = Option.some ws ∧
         i.witness_utxo.map (fun u => u.script_pubkey)
           = Option.some (to_v0_p2wsh ws))) :
    checkSpendInputs l = Except.ok () := by
  induction l with
  | nil => rfl
  | cons i rest ih =>
    have htail : checkSpendInputs rest = Except.ok () :=
      ih (fun j hj => h j (by simp [hj]))
    by_cases hfin : i.final_script_witness.isSome = true
    · simp [checkSpendInputs, hfin, htail]
    · have hfin' : i.final_script_witness = Option.none := by
        cases hx : i.final_script_witness with
        | none => rfl
        | some w => rw [hx] at hfin; exact absurd rfl hfin
      obtain ⟨hsht, ws, hws, hmap⟩ := h i (by simp) hfin'
      simp [checkSpendInputs, hfin, hsht, hws, hmap, htail]

/-- C10: the Spend parser validates nothing about the outputs: any PSBT
that passes the common sanity checks, has at least one input, and whose
non-final inputs are all signed with ALL and carry a witness script
committing to their previous output, is accepted as a Spend transaction —
no hypothesis about the outputs, their count (zero included), their values
or their metadata is needed. -/
theorem C10_spend_no_output_validation (psbt : Psbt)
    (h1 : psbt_common_sanity_checks psbt = Except.ok psbt)
    (h2 : psbt.inputs ≠ [])
    (h3 : ∀ i ∈ psbt.inputs, i.final_script_witness = Option.none →
      (i.sighash_type = Option.some SigHashType.all ∧
       ∃ ws, i.witness_script = Option.some ws ∧
         i.witness_utxo.map (fun u => u.script_pubkey)
           = Option.some (to_v0_p2wsh ws))) :
    spend_from_psbt_serialized (as_psbt_serialized psbt) = Except.ok psbt := by
  have hchecks : spendChecks psbt = Except.ok () := by
    unfold spendChecks
    rw [if_neg (by simp [List.length_eq_zero, h2])]
    exact checkSpendInputs_ok psbt.inputs h3
  have hvalid : spendValidate psbt = Except.ok psbt := by
    show validateWith spendChecks psbt = Except.ok psbt
    unfold validateWith
    rw [h1]
    show (match spendChecks psbt with
      | Except.error e => Except.error e
      | Except.ok _ => (Except.ok psbt : Except PsbtValidationError Psbt))
      = Except.ok psbt
    rw [hchecks]
  exact validateWith_roundtrip spendChecks psbt hvalid

/-- A Spend-acceptable PSBT with no outputs at all. -/
def spendZeroOut : Psbt :=
  ⟨⟨2, 0, [⟨0, 0, 0⟩], []⟩, [psbtOneInInput], []⟩

/-- A Spend-acceptable PSBT with nonsense outputs: a zero-value non-segwit
output with no output witness script, and an output metadata entry carrying
a legacy redeem script. -/
def spendJunkOut : Psbt :=
  ⟨⟨2, 0, [⟨0, 0, 0⟩], [⟨0, Script.other [1]⟩, ⟨5, Script.wpkh [2]⟩]⟩,
   [psbtOneInInput],
   [{}, { redeem_script := Option.some [3] }]⟩

/-- C10, witness: a zero-output PSBT and a nonsense-output PSBT, both
accepted as Spend transactions. -/
theorem C10_spend_no_output_validation_witness :
    spend_from_psbt_serialized (as_psbt_serialized spendZeroOut)
      = Except.ok spendZeroOut ∧
    spend_from_psbt_serialized (as_psbt_serialized spendJunkOut)
      = Except.ok spendJunkOut := by
  constructor
  · exact C10_spend_no_output_validation spendZeroOut (by decide) (by decide)
      (by decide)
  · exact C10_spend_no_output_validation spendJunkOut (by decide) (by decide)
      (by decide)

/-- C4, witness: the amended dust policy at a concrete deposit — an
Emergency deposit below the fee alone is rejected as `Dust`. -/
theorem C4_dust_policy_witness :
    EmergencyTransaction_new ⟨7, 0, 0, ⟨4399, Script.wsh [33]⟩, Option.some [33], 100⟩
        Option.none (Script.other [9]) 100 0
      = Except.error TransactionCreationError.Dust :=
  ((C4_dust_policy ⟨7, 0, 0, ⟨4399, Script.wsh [33]⟩, Option.some [33], 100⟩
      ⟨7, 0, 0, ⟨4399, Script.wsh [33]⟩, Option.some [33], 100⟩ Option.none
      [1] [2] [3] (Script.other [9]) 100 0).2.1).mpr (by decide)
